import Mathlib

/-!
Verification development for the rayzor latency-testing pipeline.

The Python sources (services/parse_config_link.py, services/fingerprint.py,
remove_duplicate_configs.py, test_latency.py) are embedded shallowly:
strings are lists of characters, Python dicts holding JSON-like data are an
inductive `Json` type with insertion-ordered association lists, fallible code
returns `Option`/`Except`, and the I/O-bound batch prober is modelled with
explicit oracles for the network and subprocess environment.
-/

set_option maxHeartbeats 1600000
set_option maxRecDepth 4000

namespace Rayzor

/-! ### Python-style string primitives (on `List Char`) -/

/-- Characters treated as whitespace by Python's `str.strip()`. -/
def pyIsSpace (c : Char) : Bool :=
  c = ' ' || c = '\t' || c = '\n' || c = '\x0d' || c = '\x0b' || c = '\x0c'

/-- Python `str.strip()`. -/
def pyStrip (l : List Char) : List Char :=
  ((l.dropWhile pyIsSpace).reverse.dropWhile pyIsSpace).reverse

/-- Python `str.lower()` (ASCII range, which is all the pipeline uses). -/
def pyLower (l : List Char) : List Char := l.map Char.toLower

/-- Split at the first occurrence of a character: `s.split(sep, 1)` when it hits. -/
def splitOnceChar (sep : Char) : List Char → Option (List Char × List Char)
  | [] => none
  | c :: rest =>
    if c = sep then some ([], rest)
    else (splitOnceChar sep rest).map (fun p => (c :: p.1, p.2))

/-- Split at the last occurrence of a character: `s.rsplit(sep, 1)` when it hits. -/
def rsplitOnceChar (sep : Char) (l : List Char) : Option (List Char × List Char) :=
  (splitOnceChar sep l.reverse).map (fun p => (p.2.reverse, p.1.reverse))

/-- Python `s.split(sep)` for a one-character separator (full split). -/
def splitAllChar (sep : Char) : List Char → List (List Char)
  | [] => [[]]
  | c :: rest =>
    if c = sep then [] :: splitAllChar sep rest
    else
      match splitAllChar sep rest with
      | [] => [[c]]
      | h :: t => (c :: h) :: t

/-- First occurrence of a (non-empty) substring: returns (before, after). -/
def findSub (sep : List Char) : List Char → Option (List Char × List Char)
  | [] => none
  | c :: rest =>
    if sep.isPrefixOf (c :: rest) then some ([], (c :: rest).drop sep.length)
    else (findSub sep rest).map (fun p => (c :: p.1, p.2))

def splitAllSubAux (sep : List Char) : Nat → List Char → List (List Char)
  | 0, l => [l]
  | fuel + 1, l =>
    match findSub sep l with
    | none => [l]
    | some (a, b) => a :: splitAllSubAux sep fuel b

/-- Python `s.split(sep)` for a multi-character separator. -/
def splitAllSub (sep l : List Char) : List (List Char) :=
  splitAllSubAux sep (l.length + 1) l

/-- Python `old in s` (substring containment). -/
def containsSub (sep l : List Char) : Bool := (findSub sep l).isSome

/-- Python `s.replace(old, new)`. -/
def pyReplace (old new l : List Char) : List Char :=
  List.intercalate new (splitAllSub old l)

/-- Python `s.startswith(pre)`. -/
def pyStartsWith (pre l : List Char) : Bool := pre.isPrefixOf l

def isDigitC (c : Char) : Bool := '0' ≤ c && c ≤ '9'

def digitsVal (l : List Char) : Nat :=
  l.foldl (fun a c => a * 10 + (c.toNat - '0'.toNat)) 0

/-- Python `int(s, 10)` restricted to plain non-negative digit strings (the only
shapes the pipeline feeds it); anything else raises, modelled as `none`. -/
def pyIntOfStr? (l : List Char) : Option Int :=
  if l ≠ [] && l.all isDigitC then some (digitsVal l) else none

/-- Stable insertion into a sorted list: the new element goes after every
element it does not strictly precede (matching Python's stable sort). -/
def insertStable {α : Type} (lt : α → α → Bool) (x : α) : List α → List α
  | [] => [x]
  | y :: ys => if lt x y then x :: y :: ys else y :: insertStable lt x ys

/-- Python `sorted(l)` / `l.sort()` with strict comparator `lt`. -/
def pySorted {α : Type} (lt : α → α → Bool) (l : List α) : List α :=
  l.foldl (fun acc x => insertStable lt x acc) []

/-- Lexicographic `<` on char lists, as Python compares strings. -/
def strLt : List Char → List Char → Bool
  | [], [] => false
  | [], _ :: _ => true
  | _ :: _, [] => false
  | a :: as, b :: bs => if a < b then true else if b < a then false else strLt as bs

/-! Sanity checks of the primitives. -/

example : pyStrip " ab c \n".data = "ab c".data := by decide
example : splitOnceChar '#' "a#b#c".data = some ("a".data, "b#c".data) := by decide
example : rsplitOnceChar ':' "a:b:c".data = some ("a:b".data, "c".data) := by decide
example : splitAllChar '&' "a=1&b=2&&c".data = ["a=1".data, "b=2".data, [], "c".data] := by decide
example : splitAllSub "ss://".data "xss://yss://z".data = ["x".data, "y".data, "z".data] := by decide
example : pyReplace "vmess://".data [] "vmess://abc".data = "abc".data := by decide
example : pyIntOfStr? "8388".data = some 8388 := by decide
example : pySorted strLt ["b".data, "a".data, "c".data] = ["a".data, "b".data, "c".data] := by decide

/-! ### UTF-8 (Python `bytes.decode("utf-8")` / `str.encode()`) -/

/-- UTF-8 encoding of one character. -/
def utf8EncodeChar (c : Char) : List Nat :=
  let n := c.toNat
  if n < 0x80 then [n]
  else if n < 0x800 then [0xC0 + n / 64, 0x80 + n % 64]
  else if n < 0x10000 then [0xE0 + n / 4096, 0x80 + n / 64 % 64, 0x80 + n % 64]
  else [0xF0 + n / 262144, 0x80 + n / 4096 % 64, 0x80 + n / 64 % 64, 0x80 + n % 64]

def utf8Encode (l : List Char) : List Nat := (l.map utf8EncodeChar).flatten

def isCont (b : Nat) : Bool := 0x80 ≤ b && b < 0xC0

/-- Strict UTF-8 decoding (`errors="strict"`): `none` on any invalid sequence. -/
def utf8DecodeStrict : Nat → List Nat → Option (List Char)
  | _, [] => some []
  | 0, _ => none
  | fuel + 1, b :: rest =>
    if b < 0x80 then (utf8DecodeStrict fuel rest).map (Char.ofNat b :: ·)
    else if 0xC2 ≤ b && b < 0xE0 then
      match rest with
      | b2 :: rest2 =>
        if isCont b2 then
          (utf8DecodeStrict fuel rest2).map (Char.ofNat ((b - 0xC0) * 64 + (b2 - 0x80)) :: ·)
        else none
      | _ => none
    else if 0xE0 ≤ b && b < 0xF0 then
      match rest with
      | b2 :: b3 :: rest3 =>
        let code := (b - 0xE0) * 4096 + (b2 - 0x80) * 64 + (b3 - 0x80)
        if isCont b2 && isCont b3 && 0x800 ≤ code && !(0xD800 ≤ code && code < 0xE000) then
          (utf8DecodeStrict fuel rest3).map (Char.ofNat code :: ·)
        else none
      | _ => none
    else if 0xF0 ≤ b && b < 0xF5 then
      match rest with
      | b2 :: b3 :: b4 :: rest4 =>
        let code := (b - 0xF0) * 262144 + (b2 - 0x80) * 4096 + (b3 - 0x80) * 64 + (b4 - 0x80)
        if isCont b2 && isCont b3 && isCont b4 && 0x10000 ≤ code && code ≤ 0x10FFFF then
          (utf8DecodeStrict fuel rest4).map (Char.ofNat code :: ·)
        else none
      | _ => none
    else none

/-- Lenient UTF-8 decoding (`errors="ignore"`): invalid bytes are skipped. -/
def utf8DecodeIgnore : Nat → List Nat → List Char
  | _, [] => []
  | 0, _ => []
  | fuel + 1, b :: rest =>
    if b < 0x80 then Char.ofNat b :: utf8DecodeIgnore fuel rest
    else if 0xC2 ≤ b && b < 0xE0 then
      match rest with
      | b2 :: rest2 =>
        if isCont b2 then Char.ofNat ((b - 0xC0) * 64 + (b2 - 0x80)) :: utf8DecodeIgnore fuel rest2
        else utf8DecodeIgnore fuel rest
      | _ => []
    else if 0xE0 ≤ b && b < 0xF0 then
      match rest with
      | b2 :: b3 :: rest3 =>
        let code := (b - 0xE0) * 4096 + (b2 - 0x80) * 64 + (b3 - 0x80)
        if isCont b2 && isCont b3 && 0x800 ≤ code && !(0xD800 ≤ code && code < 0xE000) then
          Char.ofNat code :: utf8DecodeIgnore fuel rest3
        else utf8DecodeIgnore fuel rest
      | _ => []
    else if 0xF0 ≤ b && b < 0xF5 then
      match rest with
      | b2 :: b3 :: b4 :: rest4 =>
        let code := (b - 0xF0) * 262144 + (b2 - 0x80) * 4096 + (b3 - 0x80) * 64 + (b4 - 0x80)
        if isCont b2 && isCont b3 && isCont b4 && 0x10000 ≤ code && code ≤ 0x10FFFF then
          Char.ofNat code :: utf8DecodeIgnore fuel rest4
        else utf8DecodeIgnore fuel rest
      | _ => []
    else utf8DecodeIgnore fuel rest

def utf8Decode? (bytes : List Nat) : Option (List Char) :=
  utf8DecodeStrict (bytes.length + 1) bytes

def utf8DecodeIgn (bytes : List Nat) : List Char :=
  utf8DecodeIgnore (bytes.length + 1) bytes

/-! ### Base64 (Python `base64.urlsafe_b64decode` / `b64decode`, `validate=False`) -/

def b64CharOfIdx (i : Nat) : Char :=
  if i < 26 then Char.ofNat ('A'.toNat + i)
  else if i < 52 then Char.ofNat ('a'.toNat + (i - 26))
  else if i < 62 then Char.ofNat ('0'.toNat + (i - 52))
  else if i = 62 then '+' else '/'

def b64IdxOfChar? (c : Char) : Option Nat :=
  if 'A' ≤ c && c ≤ 'Z' then some (c.toNat - 'A'.toNat)
  else if 'a' ≤ c && c ≤ 'z' then some (c.toNat - 'a'.toNat + 26)
  else if '0' ≤ c && c ≤ '9' then some (c.toNat - '0'.toNat + 52)
  else if c = '+' then some 62
  else if c = '/' then some 63
  else none

/-- Canonical base64 encoding of a byte list (standard alphabet, `=`-padded). -/
def b64EncodeBytes : List Nat → List Char
  | [] => []
  | [a] => [b64CharOfIdx (a / 4), b64CharOfIdx (a % 4 * 16), '=', '=']
  | [a, b] => [b64CharOfIdx (a / 4), b64CharOfIdx (a % 4 * 16 + b / 16), b64CharOfIdx (b % 16 * 4), '=']
  | a :: b :: c :: rest =>
    b64CharOfIdx (a / 4) :: b64CharOfIdx (a % 4 * 16 + b / 16) ::
    b64CharOfIdx (b % 16 * 4 + c / 64) :: b64CharOfIdx (c % 64) :: b64EncodeBytes rest

/-- Decode a run of 6-bit groups (the `=` padding already stripped). -/
def b64DecodeIdxs : List Nat → Option (List Nat)
  | [] => some []
  | [_] => none
  | [a, b] => some [a * 4 + b / 16]
  | [a, b, c] => some [a * 4 + b / 16, b % 16 * 16 + c / 4]
  | a :: b :: c :: d :: rest =>
    (b64DecodeIdxs rest).map
      (fun t => (a * 4 + b / 16) :: (b % 16 * 16 + c / 4) :: (c % 4 * 64 + d) :: t)

/-- Python's urlsafe alphabet translation (`-`→`+`, `_`→`/`). -/
def b64Translate (c : Char) : Char := if c = '-' then '+' else if c = '_' then '/' else c

def dropTrailEq (l : List Char) : List Char := (l.reverse.dropWhile (· = '=')).reverse

/-- Model of `base64.urlsafe_b64decode` with `validate=False`: translate the
urlsafe alphabet, discard characters outside the base64 alphabet (CPython's
`binascii.a2b_base64` skips them), strip trailing padding and decode.  Padding
occurring mid-stream is rejected (the callers always pad only at the end). -/
def b64DecodeBytes? (l : List Char) : Option (List Nat) :=
  let kept := (l.map b64Translate).filter (fun c => (b64IdxOfChar? c).isSome || c = '=')
  let core := dropTrailEq kept
  if core.contains '=' then none
  else b64DecodeIdxs (core.filterMap b64IdxOfChar?)

example : b64EncodeBytes [77, 97, 110] = "TWFu".data := by decide
example : b64EncodeBytes [77, 97] = "TWE=".data := by decide
example : b64DecodeBytes? "TWFu".data = some [77, 97, 110] := by decide
example : b64DecodeBytes? "TWE=".data = some [77, 97] := by decide
example : b64DecodeBytes? "TWE".data = some [77, 97] := by decide
example : utf8Decode? [104, 105] = some "hi".data := by decide
example : utf8Encode "hé".data = [104, 0xC3, 0xA9] := by decide
example : utf8Decode? [104, 0xC3, 0xA9] = some "hé".data := by decide
example : utf8DecodeIgn [104, 0xFF, 105] = "hi".data := by decide

/-! ### Percent-decoding (`urllib.parse.unquote`) and query strings (`parse_qs`) -/

def hexVal? (c : Char) : Option Nat :=
  if isDigitC c then some (c.toNat - 48)
  else if 'a' ≤ c && c ≤ 'f' then some (c.toNat - 87)
  else if 'A' ≤ c && c ≤ 'F' then some (c.toNat - 55)
  else none

/-- UTF-8 decoding with `errors="replace"`: invalid bytes become U+FFFD. -/
def utf8DecodeReplace : Nat → List Nat → List Char
  | _, [] => []
  | 0, l => l.map (fun _ => Char.ofNat 0xFFFD)
  | fuel + 1, b :: rest =>
    if b < 0x80 then Char.ofNat b :: utf8DecodeReplace fuel rest
    else if 0xC2 ≤ b && b < 0xE0 then
      match rest with
      | b2 :: rest2 =>
        if isCont b2 then Char.ofNat ((b - 0xC0) * 64 + (b2 - 0x80)) :: utf8DecodeReplace fuel rest2
        else Char.ofNat 0xFFFD :: utf8DecodeReplace fuel rest
      | _ => [Char.ofNat 0xFFFD]
    else if 0xE0 ≤ b && b < 0xF0 then
      match rest with
      | b2 :: b3 :: rest3 =>
        let code := (b - 0xE0) * 4096 + (b2 - 0x80) * 64 + (b3 - 0x80)
        if isCont b2 && isCont b3 && 0x800 ≤ code && !(0xD800 ≤ code && code < 0xE000) then
          Char.ofNat code :: utf8DecodeReplace fuel rest3
        else Char.ofNat 0xFFFD :: utf8DecodeReplace fuel rest
      | _ => [Char.ofNat 0xFFFD]
    else if 0xF0 ≤ b && b < 0xF5 then
      match rest with
      | b2 :: b3 :: b4 :: rest4 =>
        let code := (b - 0xF0) * 262144 + (b2 - 0x80) * 4096 + (b3 - 0x80) * 64 + (b4 - 0x80)
        if isCont b2 && isCont b3 && isCont b4 && 0x10000 ≤ code && code ≤ 0x10FFFF then
          Char.ofNat code :: utf8DecodeReplace fuel rest4
        else Char.ofNat 0xFFFD :: utf8DecodeReplace fuel rest
      | _ => [Char.ofNat 0xFFFD]
    else Char.ofNat 0xFFFD :: utf8DecodeReplace fuel rest

/-- Maximal leading run of `%XX` escapes, as bytes, plus the remainder. -/
def pctBytes : List Char → List Nat × List Char
  | '%' :: h1 :: h2 :: rest =>
    match hexVal? h1, hexVal? h2 with
    | some a, some b =>
      let (bs, r) := pctBytes rest
      ((a * 16 + b) :: bs, r)
    | _, _ => ([], '%' :: h1 :: h2 :: rest)
  | l => ([], l)

theorem pctBytes_rest_le (l : List Char) : (pctBytes l).2.length ≤ l.length := by
  induction l using pctBytes.induct with
  | case1 h1 h2 rest a b ha hb bs r hp ih =>
      simp only [pctBytes, ha, hb, hp] at *
      simp only [List.length_cons]
      omega
  | case2 h1 h2 rest hnab =>
      simp only [pctBytes]
      exact le_refl _
  | case3 l h => simp [pctBytes]

/-- Python `urllib.parse.unquote`: decode maximal runs of `%XX` escapes as
UTF-8 with `errors="replace"`; everything else passes through. -/
def unquoteAux : Nat → List Char → List Char
  | 0, l => l
  | _ + 1, [] => []
  | fuel + 1, c :: rest =>
    if c = '%' then
      match pctBytes (c :: rest) with
      | ([], _) => c :: unquoteAux fuel rest
      | (bs, r) => utf8DecodeReplace (bs.length + 1) bs ++ unquoteAux fuel r
    else c :: unquoteAux fuel rest

def unquote (l : List Char) : List Char := unquoteAux l.length l

/-- Python's `'+'` → space replacement applied by `parse_qsl` before unquoting. -/
def plusToSpace (l : List Char) : List Char := l.map fun c => if c = '+' then ' ' else c

/-- One `name=value` segment of `parse_qsl` (`keep_blank_values=False`):
empty segments, segments without `=`, and empty values are all skipped. -/
def parseQslSeg (nv : List Char) : Option (List Char × List Char) :=
  if nv = [] then none
  else
    match splitOnceChar '=' nv with
    | none => none
    | some (n, v) =>
      if v = [] then none
      else some (unquote (plusToSpace n), unquote (plusToSpace v))

/-- `parse_qsl` with the defaults used by the sources. -/
def parseQsl (q : List Char) : List (List Char × List Char) :=
  (splitAllChar '&' q).filterMap parseQslSeg

/-- First value for a key in `parse_qs(q)`, i.e. `parse_qs(q).get(k, [d])[0]`. -/
def qsFirstD (q k d : List Char) : List Char :=
  match (parseQsl q).find? (fun p => p.1 = k) with
  | some p => p.2
  | none => d

/-- `k in parse_qs(q)`. -/
def qsHas (q k : List Char) : Bool := ((parseQsl q).find? (fun p => p.1 = k)).isSome

example : unquote "a%20b%2Fc".data = "a b/c".data := by decide
example : parseQsl "a=1&b=&c&x=%2F".data = [("a".data, "1".data), ("x".data, "/".data)] := by decide
example : qsFirstD "security=tls&sni=x".data "sni".data [] = "x".data := by decide

/-! ### JSON values and Python dict semantics

The Python sources build proxy descriptors as plain dicts of JSON-ish values;
we model them as `Json.obj` with an insertion-ordered association list. -/

inductive Json where
  | null : Json
  | bool (b : Bool) : Json
  | num (n : Int) : Json
  | str (s : List Char) : Json
  | arr (elts : List Json) : Json
  | obj (fields : List (List Char × Json)) : Json

/-- `d.get(k)` on a dict's field list (`None`-as-`none` when absent). -/
def jGet? (o : List (List Char × Json)) (k : List Char) : Option Json :=
  (o.find? (fun p => p.1 = k)).map (·.2)

/-- `d.get(k, default)`. -/
def jGetD (o : List (List Char × Json)) (k : List Char) (d : Json) : Json :=
  (jGet? o k).getD d

/-- `d[k] = v`: update in place, or append preserving insertion order. -/
def jSet (o : List (List Char × Json)) (k : List Char) (v : Json) :
    List (List Char × Json) :=
  match o with
  | [] => [(k, v)]
  | (k', v') :: t => if k' = k then (k, v) :: t else (k', v') :: jSet t k v

/-- `del d[k]` (keys are unique in every dict the pipeline builds). -/
def jDel (o : List (List Char × Json)) (k : List Char) : List (List Char × Json) :=
  o.filter (fun p => p.1 != k)

/-- `k in d`. -/
def jHas (o : List (List Char × Json)) (k : List Char) : Bool := (jGet? o k).isSome

/-- Python truthiness of a JSON-ish value. -/
def pyTruthy : Json → Bool
  | .null => false
  | .bool b => b
  | .num n => n != 0
  | .str s => !s.isEmpty
  | .arr l => !l.isEmpty
  | .obj l => !l.isEmpty

/-- `j == "lit"` in Python: equality against a string literal. -/
def jEqStr (j : Json) (s : List Char) : Bool :=
  match j with
  | .str t => t = s
  | _ => false

/-- Python `x or y` (returns the first operand when truthy, else the second). -/
def pyOr (a b : Json) : Json := if pyTruthy a then a else b

mutual

/-- `repr()` of a JSON-ish value, as far as the pipeline can observe it
(scalar values; containers are rendered structurally). -/
def pyRepr : Json → List Char
  | .null => "None".data
  | .bool true => "True".data
  | .bool false => "False".data
  | .num n => (toString n).data
  | .str s => '\x27' :: s ++ ['\x27']
  | .arr l => '[' :: List.intercalate ", ".data (pyReprList l) ++ [']']
  | .obj l => '\x7b' :: List.intercalate ", ".data (pyReprFields l) ++ ['\x7d']

def pyReprList : List Json → List (List Char)
  | [] => []
  | j :: t => pyRepr j :: pyReprList t

def pyReprFields : List (List Char × Json) → List (List Char)
  | [] => []
  | (k, v) :: t => (('\x27' :: k ++ ['\x27']) ++ ": ".data ++ pyRepr v) :: pyReprFields t

end

/-- Python `f"{x}"` / `str(x)` of a JSON-ish value. -/
def pyFStr : Json → List Char
  | .str s => s
  | j => pyRepr j

/-! ### `json.loads` (the subset exercised by the pipeline: objects, arrays,
strings with standard escapes, integers, literals; floats are not modelled). -/

def jsonSkipWs (l : List Char) : List Char :=
  l.dropWhile fun c => c = ' ' || c = '\t' || c = '\n' || c = '\x0d'

/-- Parse the body of a JSON string after the opening quote. -/
def jsonParseString : List Char → Option (List Char × List Char)
  | [] => none
  | '"' :: rest => some ([], rest)
  | '\\' :: e :: rest =>
    match e with
    | '"' => (jsonParseString rest).map fun p => ('"' :: p.1, p.2)
    | '\\' => (jsonParseString rest).map fun p => ('\\' :: p.1, p.2)
    | '/' => (jsonParseString rest).map fun p => ('/' :: p.1, p.2)
    | 'b' => (jsonParseString rest).map fun p => ('\x08' :: p.1, p.2)
    | 'f' => (jsonParseString rest).map fun p => ('\x0c' :: p.1, p.2)
    | 'n' => (jsonParseString rest).map fun p => ('\n' :: p.1, p.2)
    | 'r' => (jsonParseString rest).map fun p => ('\x0d' :: p.1, p.2)
    | 't' => (jsonParseString rest).map fun p => ('\t' :: p.1, p.2)
    | 'u' =>
      match rest with
      | h1 :: h2 :: h3 :: h4 :: rest4 =>
        match hexVal? h1, hexVal? h2, hexVal? h3, hexVal? h4 with
        | some a, some b, some c, some d =>
          (jsonParseString rest4).map fun p =>
            (Char.ofNat (a * 4096 + b * 256 + c * 16 + d) :: p.1, p.2)
        | _, _, _, _ => none
      | _ => none
    | _ => none
  | c :: rest => (jsonParseString rest).map fun p => (c :: p.1, p.2)

/-- Parse a JSON integer (the pipeline's payloads carry no floats). -/
def jsonParseNumber (l : List Char) : Option (Json × List Char) :=
  match l with
  | '-' :: rest =>
    let ds := rest.takeWhile isDigitC
    if ds = [] then none else some (.num (-(digitsVal ds : Int)), rest.drop ds.length)
  | _ =>
    let ds := l.takeWhile isDigitC
    if ds = [] then none else some (.num (digitsVal ds), l.drop ds.length)

mutual

def jsonParseVal : Nat → List Char → Option (Json × List Char)
  | 0, _ => none
  | fuel + 1, l =>
    match jsonSkipWs l with
    | '{' :: rest =>
      match jsonSkipWs rest with
      | '}' :: rest2 => some (.obj [], rest2)
      | rest2 => (jsonParseMembers fuel rest2).map fun p => (.obj p.1, p.2)
    | '[' :: rest =>
      match jsonSkipWs rest with
      | ']' :: rest2 => some (.arr [], rest2)
      | rest2 => (jsonParseElems fuel rest2).map fun p => (.arr p.1, p.2)
    | '"' :: rest => (jsonParseString rest).map fun p => (.str p.1, p.2)
    | 't' :: 'r' :: 'u' :: 'e' :: rest => some (.bool true, rest)
    | 'f' :: 'a' :: 'l' :: 's' :: 'e' :: rest => some (.bool false, rest)
    | 'n' :: 'u' :: 'l' :: 'l' :: rest => some (.null, rest)
    | l' => jsonParseNumber l'

def jsonParseMembers : Nat → List Char → Option (List (List Char × Json) × List Char)
  | 0, _ => none
  | fuel + 1, l =>
    match jsonSkipWs l with
    | '"' :: rest =>
      match jsonParseString rest with
      | none => none
      | some (key, rest2) =>
        match jsonSkipWs rest2 with
        | ':' :: rest3 =>
          match jsonParseVal fuel rest3 with
          | none => none
          | some (v, rest4) =>
            match jsonSkipWs rest4 with
            | ',' :: rest5 =>
              (jsonParseMembers fuel rest5).map fun p => ((key, v) :: p.1, p.2)
            | '}' :: rest5 => some ([(key, v)], rest5)
            | _ => none
        | _ => none
    | _ => none

def jsonParseElems : Nat → List Char → Option (List Json × List Char)
  | 0, _ => none
  | fuel + 1, l =>
    match jsonParseVal fuel l with
    | none => none
    | some (v, rest) =>
      match jsonSkipWs rest with
      | ',' :: rest2 => (jsonParseElems fuel rest2).map fun p => (v :: p.1, p.2)
      | ']' :: rest2 => some ([v], rest2)
      | _ => none

end

/-- `json.loads`: parse a full document, rejecting trailing garbage. -/
def jsonLoads (l : List Char) : Option Json :=
  match jsonParseVal (l.length + 1) l with
  | some (v, rest) => if jsonSkipWs rest = [] then some v else none
  | none => none

example :
    jsonLoads "\x7b\x7d".data = some (.obj []) := by rfl
example :
    jsonLoads "\x7b\"add\": \"h.com\", \"port\": \"443\", \"n\": 7\x7d".data =
      some (.obj [("add".data, .str "h.com".data), ("port".data, .str "443".data),
        ("n".data, .num 7)]) := by rfl
example : pyFStr (.num 443) = "443".data := by decide
example : pyFStr .null = "None".data := by decide
example : jGetD [("a".data, .num 1)] "b".data (.str "tcp".data) = .str "tcp".data := by rfl

/-! ### `urllib.parse.urlparse` (the attributes the pipeline reads) -/

structure UrlSplit where
  scheme : List Char
  netloc : List Char
  path : List Char
  query : List Char
  fragment : List Char

def isAlphaC (c : Char) : Bool :=
  ('a' ≤ c && c ≤ 'z') || ('A' ≤ c && c ≤ 'Z')

def isSchemeChar (c : Char) : Bool :=
  isAlphaC c || isDigitC c || c = '+' || c = '-' || c = '.'

/-- Scheme extraction step of `urlsplit`: the text before the first `:` is a
scheme when it is non-empty, starts with a letter and uses scheme characters. -/
def urlSchemeSplit (url : List Char) : List Char × List Char :=
  match splitOnceChar ':' url with
  | some (pre, rest) =>
    match pre with
    | [] => ([], url)
    | c0 :: _ => if isAlphaC c0 && pre.all isSchemeChar then (pyLower pre, rest) else ([], url)
  | none => ([], url)

/-- Netloc extraction: after `//`, up to the first `/`, `?` or `#`. -/
def urlNetlocSplit (url : List Char) : List Char × List Char :=
  match url with
  | '/' :: '/' :: rest =>
    let netloc := rest.takeWhile fun c => ¬ (c = '/' || c = '?' || c = '#')
    (netloc, rest.drop netloc.length)
  | _ => ([], url)

/-- `urlsplit` (with `allow_fragments=True`); `none` models the `ValueError`
raised on a bracket-mismatched netloc ("Invalid IPv6 URL"). -/
def urlsplit? (url : List Char) : Option UrlSplit :=
  let (scheme, rest) := urlSchemeSplit url
  let (netloc, rest) := urlNetlocSplit rest
  if (netloc.contains '[' && !netloc.contains ']') ||
     (netloc.contains ']' && !netloc.contains '[') then none
  else
    let (rest, fragment) :=
      match splitOnceChar '#' rest with
      | some (a, b) => (a, b)
      | none => (rest, [])
    let (path, query) :=
      match splitOnceChar '?' rest with
      | some (a, b) => (a, b)
      | none => (rest, [])
    some ⟨scheme, netloc, path, query, fragment⟩

/-- `netloc.rpartition('@')`: userinfo before the last `@` (if any). -/
def urlUserinfo (netloc : List Char) : Option (List Char) :=
  (rsplitOnceChar '@' netloc).map (·.1)

/-- `.username`: userinfo up to the first `:`. -/
def urlUsername (netloc : List Char) : Option (List Char) :=
  (urlUserinfo netloc).map fun ui =>
    match splitOnceChar ':' ui with
    | some (n, _) => n
    | none => ui

/-- `.password`: userinfo after the first `:`, `None` when there is none. -/
def urlPassword (netloc : List Char) : Option (List Char) :=
  (urlUserinfo netloc).bind fun ui => (splitOnceChar ':' ui).map (·.2)

/-- `._hostinfo`: (host, port-string) from the part after the last `@`,
handling `[...]` brackets; an empty port string becomes `None`. -/
def urlHostinfo (netloc : List Char) : List Char × Option (List Char) :=
  let hostinfo := match rsplitOnceChar '@' netloc with
    | some (_, h) => h
    | none => netloc
  let (host, port) :=
    match splitOnceChar '[' hostinfo with
    | some (_, bracketed) =>
      match splitOnceChar ']' bracketed with
      | some (host, after) =>
        match splitOnceChar ':' after with
        | some (_, port) => (host, port)
        | none => (host, [])
      | none => (bracketed, [])
    | none =>
      match splitOnceChar ':' hostinfo with
      | some (h, p) => (h, p)
      | none => (hostinfo, [])
  (host, if port = [] then none else some port)

/-- `.hostname`: lowercased host, `None` when empty. -/
def urlHostname (netloc : List Char) : Option (List Char) :=
  let h := (urlHostinfo netloc).1
  if h = [] then none else some (pyLower h)

/-- `.port`: `none` models the `ValueError` on a non-numeric or out-of-range
port; `some none` is a URL without a port. -/
def urlPort? (netloc : List Char) : Option (Option Int) :=
  match (urlHostinfo netloc).2 with
  | none => some none
  | some pstr =>
    match pyIntOfStr? pstr with
    | none => none
    | some n => if 0 ≤ n && n ≤ 65535 then some (some n) else none

example :
    (urlsplit? "vless://u-id@Ex.COM:443?type=grpc&security=tls#my%20tag".data).map
      (fun u => (u.scheme, u.netloc, u.query, u.fragment)) =
    some ("vless".data, "u-id@Ex.COM:443".data, "type=grpc&security=tls".data,
      "my%20tag".data) := by decide
example : urlHostname "u-id@Ex.COM:443".data = some "ex.com".data := by decide
example : urlPort? "u-id@Ex.COM:443".data = some (some 443) := by decide
example : urlUsername "u:p@h:1".data = some "u".data := by decide
example : urlPassword "u:p@h:1".data = some "p".data := by decide
example : urlHostinfo "[2001:db8::1]:8388".data = ("2001:db8::1".data, some "8388".data) :=
  by decide
example : urlPort? "h".data = some none := by decide
example : urlPort? "h:x".data = none := by decide

/-! ### `services/parse_config_link.py` -/

/-- `safe_base64_decode` of `parse_config_link.py`: pad to a multiple of four,
decode (urlsafe or standard alphabet), UTF-8 decode strictly; any failure
yields the empty string. -/
def safe_base64_decode (s : List Char) : List Char :=
  if s = [] then []
  else
    let s := pyStrip s
    let s := if s.length % 4 ≠ 0 then s ++ List.replicate (4 - s.length % 4) '=' else s
    match b64DecodeBytes? s with
    | none => []
    | some bytes =>
      match utf8Decode? bytes with
      | some cs => cs
      | none => []

/-- Python `int(x)` on a JSON-ish value (`int` of a string parses digits,
`int(True) = 1`; anything else raises). -/
def pyIntJson? : Json → Option Int
  | .num n => some n
  | .str s => pyIntOfStr? s
  | .bool b => some (if b then 1 else 0)
  | _ => none

def jOfOptStr : Option (List Char) → Json
  | some s => .str s
  | none => .null

/-- `parse_vmess`: strip the scheme, base64-decode, JSON-decode, and build the
outbound dict; `error` models the `ValueError`s the caller catches. -/
def parse_vmess (link : List Char) : Except Unit Json :=
  let b64 := link.drop 8
  match jsonLoads (safe_base64_decode b64) with
  | none => .error ()
  | some (.obj data) =>
    match pyIntJson? (jGetD data "port".data .null) with
    | none => .error ()
    | some port =>
      match pyIntJson? (jGetD data "aid".data (.num 0)) with
      | none => .error ()
      | some aid =>
        let ob0 : List (List Char × Json) := [
          ("type".data, .str "vmess".data),
          ("tag".data, jGetD data "ps".data (.str "vmess-proxy".data)),
          ("server".data, jGetD data "add".data .null),
          ("server_port".data, .num port),
          ("uuid".data, jGetD data "id".data .null),
          ("alter_id".data, .num aid),
          ("security".data, jGetD data "scy".data (.str "auto".data))]
        let net := jGetD data "net".data (.str "tcp".data)
        let net := if jEqStr net "raw".data then .str "tcp".data else net
        let ob1 :=
          if pyTruthy net &&
             !(jEqStr net "tcp".data || jEqStr net "kcp".data || jEqStr net "quic".data) then
            let tr0 : List (List Char × Json) := [("type".data, net)]
            let tr :=
              if jEqStr net "ws".data then
                tr0 ++ [("path".data, jGetD data "path".data (.str "/".data)),
                        ("headers".data, .obj [("Host".data, jGetD data "host".data (.str []))])]
              else if jEqStr net "grpc".data then
                tr0 ++ [("service_name".data, jGetD data "path".data (.str []))]
              else if jEqStr net "httpupgrade".data then
                tr0 ++ [("path".data, jGetD data "path".data (.str "/".data)),
                        ("headers".data, .obj [("Host".data, jGetD data "host".data (.str []))])]
              else tr0
            ob0 ++ [("transport".data, .obj tr)]
          else ob0
        let ob2 :=
          if jEqStr (jGetD data "tls".data .null) "tls".data then
            ob1 ++ [("tls".data, .obj [
              ("enabled".data, .bool true),
              ("server_name".data,
                pyOr (jGetD data "sni".data .null) (jGetD data "host".data .null)),
              ("insecure".data, .bool true)])]
          else ob1
        .ok (.obj ob2)
  | some _ => .error ()

/-- `parse_server_host_port`: split `host:port` at the rightmost `:` and strip
one pair of surrounding IPv6 brackets. -/
def parse_server_host_port (server : List Char) : Except Unit (List Char × Int) :=
  match rsplitOnceChar ':' server with
  | none => .error ()
  | some (hostStr, portStr) =>
    let hostStr :=
      match hostStr with
      | '[' :: rest => if rest.getLast? = some ']' then rest.dropLast else '[' :: rest
      | _ => hostStr
    match pyIntOfStr? portStr with
    | none => .error ()
    | some p => .ok (hostStr, p)

def VALID_SS_METHODS : List (List Char) := [
  "aes-128-gcm".data, "aes-192-gcm".data, "aes-256-gcm".data,
  "chacha20-ietf-poly1305".data, "xchacha20-ietf-poly1305".data,
  "2022-blake3-aes-128-gcm".data, "2022-blake3-aes-256-gcm".data,
  "aes-128-ctr".data, "aes-192-ctr".data, "aes-256-ctr".data,
  "aes-128-cfb".data, "aes-192-cfb".data, "aes-256-cfb".data,
  "rc4-md5".data, "chacha20-ietf".data, "xchacha20".data, "chacha20".data]

/-- `parse_shadowsocks`: SIP002 and legacy forms.  The `plugin` query parameter
is extracted in the source only to clean the URI (the `if plugin_opts:` block
is a no-op), so only the query stripping is modelled. -/
def parse_shadowsocks (link : List Char) : Except Unit Json :=
  if ¬ pyStartsWith "ss://".data link then .error ()
  else
    let uri := link.drop 5
    let (uri, tag) :=
      match splitOnceChar '#' uri with
      | some (u, t) => (u, pyStrip (unquote t))
      | none => (uri, "ss-proxy".data)
    let uri :=
      match splitOnceChar '?' uri with
      | some (u, _) => u
      | none => uri
    let step : Except Unit (List Char × List Char × List Char × Int) :=
      match rsplitOnceChar '@' uri with
      | some (userinfo, serverStr) =>
        let decoded := safe_base64_decode userinfo
        let (method, password) :=
          match splitOnceChar ':' decoded with
          | some (m, p) => (m, p)
          | none =>
            match splitOnceChar ':' userinfo with
            | some (m, p) => (m, p)
            | none => (userinfo, [])
        match parse_server_host_port serverStr with
        | .error _ => .error ()
        | .ok (host, port) => .ok (method, password, host, port)
      | none =>
        let decoded := safe_base64_decode uri
        match rsplitOnceChar '@' decoded with
        | none => .error ()
        | some (creds, serverStr) =>
          match parse_server_host_port serverStr with
          | .error _ => .error ()
          | .ok (host, port) =>
            let (method, password) :=
              match splitOnceChar ':' creds with
              | some (m, p) => (m, p)
              | none => (creds, [])
            .ok (method, password, host, port)
    match step with
    | .error _ => .error ()
    | .ok (method, password, host, port) =>
      let method := pyLower method
      let method :=
        if VALID_SS_METHODS.contains method then method
        else
          let potential := pyLower (safe_base64_decode method)
          if VALID_SS_METHODS.contains potential then potential else method
      .ok (.obj [
        ("type".data, .str "shadowsocks".data),
        ("tag".data, .str tag),
        ("server".data, .str host),
        ("server_port".data, .num port),
        ("method".data, .str method),
        ("password".data, .str password)])

/-- `parse_standard_uri(link, protocol)` for vless/trojan/tuic/hysteria2. -/
def parse_standard_uri (link protocol : List Char) : Except Unit Json :=
  match urlsplit? link with
  | none => .error ()
  | some u =>
    let params := u.query
    let tag : Json :=
      if u.fragment ≠ [] then .str (unquote u.fragment) else .str (protocol ++ "-proxy".data)
    let server : Json := jOfOptStr (urlHostname u.netloc)
    match urlPort? u.netloc with
    | none => .error ()
    | some portOpt =>
      let port : Json := match portOpt with | some n => .num n | none => .null
      let ob0 : List (List Char × Json) := [
        ("type".data, .str protocol),
        ("tag".data, tag),
        ("server".data, server),
        ("server_port".data, port)]
      let ob1 :=
        if protocol = "vless".data then
          let ob := ob0 ++ [("uuid".data, jOfOptStr (urlUsername u.netloc))]
          if qsHas params "flow".data then
            ob ++ [("flow".data, .str (qsFirstD params "flow".data []))]
          else ob
        else if protocol = "trojan".data then
          ob0 ++ [("password".data, jOfOptStr (urlUsername u.netloc))]
        else if protocol = "tuic".data then
          ob0 ++ [("uuid".data, jOfOptStr (urlUsername u.netloc)),
                  ("password".data, jOfOptStr (urlPassword u.netloc)),
                  ("congestion_control".data,
                    .str (qsFirstD params "congestion_control".data "bbr".data))]
        else if containsSub "hysteria2".data protocol || containsSub "hy2".data protocol then
          let ob := jSet ob0 "type".data (.str "hysteria2".data)
          let ob := ob ++
            [("password".data, pyOr (jOfOptStr (urlUsername u.netloc)) (.str "password".data))]
          if qsHas params "obfs".data then
            ob ++ [("obfs".data, .obj [
              ("type".data, .str (qsFirstD params "obfs".data [])),
              ("password".data, .str (qsFirstD params "obfs-password".data []))])]
          else ob
        else ob0
      let security := qsFirstD params "security".data []
      let sni := qsFirstD params "sni".data []
      let fp := qsFirstD params "fp".data []
      let ob2 :=
        if security = "tls".data || protocol = "tuic".data || protocol = "hysteria2".data ||
           protocol = "hy2".data then
          let tls0 : List (List Char × Json) := [
            ("enabled".data, .bool true),
            ("server_name".data,
              if sni ≠ [] then .str sni else jOfOptStr (urlHostname u.netloc)),
            ("insecure".data, .bool true),
            ("utls".data,
              if fp ≠ [] then
                .obj [("enabled".data, .bool true), ("fingerprint".data, .str fp)]
              else .null)]
          let tls1 :=
            if security = "reality".data then
              tls0 ++ [("reality".data, .obj [
                ("enabled".data, .bool true),
                ("public_key".data, .str (qsFirstD params "pbk".data [])),
                ("short_id".data, .str (qsFirstD params "sid".data []))])]
            else tls0
          ob1 ++ [("tls".data, .obj tls1)]
        else ob1
      let net := qsFirstD params "type".data "tcp".data
      let ob3 :=
        if net = "ws".data || net = "grpc".data || net = "httpupgrade".data then
          let tr0 : List (List Char × Json) := [("type".data, .str net)]
          let tr :=
            if net = "ws".data then
              let tr := tr0 ++ [("path".data, .str (qsFirstD params "path".data "/".data))]
              let host := qsFirstD params "host".data []
              if host ≠ [] then tr ++ [("headers".data, .obj [("Host".data, .str host)])] else tr
            else if net = "grpc".data then
              tr0 ++ [("service_name".data, .str (qsFirstD params "serviceName".data []))]
            else tr0
          ob2 ++ [("transport".data, .obj tr)]
        else ob2
      .ok (.obj ob3)

/-- `parse_link`: strip and dispatch on the scheme. -/
def parse_link (link : List Char) : Except Unit Json :=
  let link := pyStrip link
  if pyStartsWith "vmess://".data link then parse_vmess link
  else if pyStartsWith "ss://".data link then parse_shadowsocks link
  else if pyStartsWith "vless://".data link then parse_standard_uri link "vless".data
  else if pyStartsWith "trojan://".data link then parse_standard_uri link "trojan".data
  else if pyStartsWith "tuic://".data link then parse_standard_uri link "tuic".data
  else if containsSub "hysteria2".data link || containsSub "hy2://".data link then
    parse_standard_uri link "hysteria2".data
  else .error ()

example :
    parse_link "ss://YWVzLTI1Ni1nY206cGFzc3dvcmRAMTI3LjAuMC4xOjg4ODg=#ss-legacy".data =
    .ok (.obj [
      ("type".data, .str "shadowsocks".data),
      ("tag".data, .str "ss-legacy".data),
      ("server".data, .str "127.0.0.1".data),
      ("server_port".data, .num 8888),
      ("method".data, .str "aes-256-gcm".data),
      ("password".data, .str "password".data)]) := by rfl

example :
    parse_link "trojan://pw@t.example.com:443?security=tls&sni=t.example.com".data =
    .ok (.obj [
      ("type".data, .str "trojan".data),
      ("tag".data, .str "trojan-proxy".data),
      ("server".data, .str "t.example.com".data),
      ("server_port".data, .num 443),
      ("password".data, .str "pw".data),
      ("tls".data, .obj [
        ("enabled".data, .bool true),
        ("server_name".data, .str "t.example.com".data),
        ("insecure".data, .bool true),
        ("utls".data, .null)])]) := by rfl

/-! ### `services/fingerprint.py` -/

/-- `safe_base64_decode` of `fingerprint.py` (UTF-8 with `errors="ignore"`). -/
def fp_safe_base64_decode (s : List Char) : List Char :=
  let s := pyStrip s
  let s := if s.length % 4 ≠ 0 then s ++ List.replicate (4 - s.length % 4) '=' else s
  match b64DecodeBytes? s with
  | none => []
  | some bytes => utf8DecodeIgn bytes

/-- `get_vmess_fingerprint`: decode the payload, ignore `ps`, join the
functional fields; any exception yields `None`. -/
def get_vmess_fingerprint (link : List Char) : Option (List Char) :=
  let payload := pyReplace "vmess://".data [] link
  let decoded := fp_safe_base64_decode payload
  if decoded = [] then none
  else
    match jsonLoads decoded with
    | some (.obj data) =>
      match jGetD data "add".data (.str []) with
      | .str add =>
        some ("vmess|".data ++ pyLower add ++ "|".data ++
          pyFStr (jGetD data "port".data (.str [])) ++ "|".data ++
          pyFStr (jGetD data "id".data (.str [])) ++ "|".data ++
          pyFStr (jGetD data "net".data (.str [])) ++ "|".data ++
          pyFStr (jGetD data "path".data (.str [])) ++ "|".data ++
          pyFStr (jGetD data "host".data (.str [])) ++ "|".data ++
          pyFStr (jGetD data "sni".data (.str [])))
      | _ => none
    | _ => none

def urlFingerprintKeys : List (List Char) :=
  ["security".data, "sni".data, "host".data, "type".data, "serviceName".data, "path".data]

/-- `get_url_fingerprint` for vless/trojan/tuic/hysteria links. -/
def get_url_fingerprint (link : List Char) : Option (List Char) :=
  match urlsplit? link with
  | none => none
  | some u =>
    let relevant := urlFingerprintKeys.filterMap fun k =>
      let v := qsFirstD u.query k []
      if v ≠ [] then some (k ++ "=".data ++ v) else none
    let paramsStr := List.intercalate "|".data (pySorted strLt relevant)
    match urlHostname u.netloc with
    | none => none
    | some host =>
      match urlPort? u.netloc with
      | none => none
      | some portOpt =>
        let portStr := match portOpt with
          | some n => (toString n).data
          | none => "None".data
        let userStr := match urlUsername u.netloc with
          | some s => s
          | none => "None".data
        some (u.scheme ++ "|".data ++ pyLower host ++ "|".data ++ portStr ++ "|".data ++
          userStr ++ "|".data ++ paramsStr)

/-- `get_ss_fingerprint`: strip scheme and fragment, base64-decode bodies
without `@`, and emit the body verbatim. -/
def get_ss_fingerprint (link : List Char) : Option (List Char) :=
  match splitAllSub "ss://".data link with
  | _ :: body :: _ =>
    let body :=
      match splitAllChar '#' body with
      | b :: _ => b
      | [] => body
    let body :=
      if ¬ body.contains '@' then
        let decoded := fp_safe_base64_decode body
        if decoded ≠ [] then decoded else body
      else body
    some ("ss|".data ++ body)
  | _ => none

/-- `generate_fingerprint`: dispatch on the scheme; unknown schemes fall back
to the link itself. -/
def generate_fingerprint (config : List Char) : Option (List Char) :=
  if pyStartsWith "vmess://".data config then get_vmess_fingerprint config
  else if pyStartsWith "ss://".data config then get_ss_fingerprint config
  else if pyStartsWith "vless://".data config || pyStartsWith "trojan://".data config ||
          pyStartsWith "tuic://".data config || pyStartsWith "hysteria".data config then
    get_url_fingerprint config
  else some config

/-! ### `remove_duplicate_configs.py` -/

def removeDupAux : List (List Char) → List (List Char) → List (List Char)
  | [], _ => []
  | c :: rest, seen =>
    match generate_fingerprint c with
    | none => removeDupAux rest seen
    | some fgp =>
      if fgp = [] then removeDupAux rest seen
      else if seen.contains fgp then removeDupAux rest seen
      else c :: removeDupAux rest (fgp :: seen)

/-- `remove_duplicates`: keep the first config per fingerprint, in first-seen
order; falsy fingerprints are skipped. -/
def remove_duplicates (configs : List (List Char)) : List (List Char) :=
  removeDupAux configs []

/-- First-occurrence deduplication by exact string equality (the spec-side
comparison point for the fallback-fingerprint claim). -/
def dedupFirstAux : List (List Char) → List (List Char) → List (List Char)
  | [], _ => []
  | c :: rest, seen =>
    if seen.contains c then dedupFirstAux rest seen
    else c :: dedupFirstAux rest (c :: seen)

def dedupFirst (l : List (List Char)) : List (List Char) := dedupFirstAux l []

example :
    get_url_fingerprint "vless://u@Ex.COM:443?type=grpc&security=tls#t".data =
    some "vless|ex.com|443|u|security=tls|type=grpc".data := by decide

/-! ### `test_latency.py` -/

def BASE_PORT : Nat := 11000
def BATCH_SIZE : Nat := 500
def MAX_RETRIES : Nat := 3

/-- The pair `(link, parsed_data)` of `models/v2ray_config.py`. -/
structure V2rayConfig where
  link : List Char
  parsed_data : Json

/-- One row of probe output (`{config, latency, status, msg}`). -/
structure ProbeResult where
  config : List Char
  latency : Int
  status : List Char
  msg : List Char
deriving DecidableEq, Repr

/-- Environment oracle for one `ping_proxy` call: the HTTP response (status
code and elapsed wall-clock milliseconds), a timeout, or another exception. -/
inductive PingOutcome where
  | response (statusCode : Nat) (elapsedMs : Nat)
  | timeout
  | exc (msg : List Char)

/-- Oracles for one `run_batch` invocation: whether the readiness poll on
`BASE_PORT` succeeds, whether the child core process has exited when polled,
the per-probe outcomes, and the nondeterministic `as_completed` arrival
order (constrained to a permutation in the theorems). -/
structure BatchEnv where
  portOpens : Bool
  processDied : Bool
  outcome : Nat → List Char → PingOutcome
  collect : List ProbeResult → List ProbeResult

/-- `ping_proxy((index, link))` driven by the outcome oracle. -/
def ping_proxy (outcome : Nat → List Char → PingOutcome) (index : Nat) (link : List Char) :
    ProbeResult :=
  match outcome index link with
  | .response code ms =>
    if code = 200 || code = 204 then ⟨link, (ms : Int), "success".data, "OK".data⟩
    else ⟨link, -1, "fail".data, "Status ".data ++ (toString code).data⟩
  | .timeout => ⟨link, -1, "fail".data, "Timeout".data⟩
  | .exc m => ⟨link, -1, "fail".data, m.take 30⟩

/-- `conf.parsed_data["tag"] = tag` on a descriptor dict. -/
def jSetJ (j : Json) (k : List Char) (v : Json) : Json :=
  match j with
  | .obj o => .obj (jSet o k v)
  | _ => j

/-- `generate_mass_config`: one socks inbound per slot on `BASE_PORT + i`, one
outbound per slot with its tag overwritten to `proxy-i`, plus `direct`, and a
routing rule `in-i → proxy-i` per slot. -/
def generate_mass_config (configs : List V2rayConfig) : Json :=
  let inbounds := configs.enum.map fun p =>
    Json.obj [
      ("type".data, .str "socks".data),
      ("tag".data, .str ("in-".data ++ (toString p.1).data)),
      ("listen".data, .str "127.0.0.1".data),
      ("listen_port".data, .num (BASE_PORT + p.1))]
  let outbounds := Json.obj [("type".data, .str "direct".data), ("tag".data, .str "direct".data)] ::
    configs.enum.map fun p =>
      jSetJ p.2.parsed_data "tag".data (.str ("proxy-".data ++ (toString p.1).data))
  let rules := configs.enum.map fun p =>
    Json.obj [
      ("inbound".data, .str ("in-".data ++ (toString p.1).data)),
      ("outbound".data, .str ("proxy-".data ++ (toString p.1).data))]
  .obj [
    ("log".data, .obj [("level".data, .str "panic".data)]),
    ("inbounds".data, .arr inbounds),
    ("outbounds".data, .arr outbounds),
    ("route".data, .obj [("rules".data, .arr rules), ("auto_detect_interface".data, .bool true)])]

/-- The shadowsocks block of `filter_supported_v2ray_configs`: `some true`
means `continue` (drop), `none` means the swallowed `.lower()` exception. -/
def ssCheck (ty : Json) (p : List (List Char × Json)) : Option Bool :=
  if jEqStr ty "shadowsocks".data then
    match jGetD p "method".data (.str []) with
    | .str m =>
      if ¬ VALID_SS_METHODS.contains (pyLower m) then some true
      else
        match jGet? p "password".data with
        | some (.str s) => if s = [] then some true else some false
        | _ => some false
    | _ => none
  else some false

/-- The transport block: returns the (possibly stripped) field list and
whether the `xhttp` `continue` fires; `none` models the `.get` exception on a
non-dict transport. -/
def transportStep (p : List (List Char × Json)) :
    Option (List (List Char × Json) × Bool) :=
  match jGet? p "transport".data with
  | none => some (p, false)
  | some (.obj t) =>
    let tType := jGetD t "type".data (.str [])
    let isBad := jEqStr tType "xhttp".data || jEqStr tType "tcp".data ||
      jEqStr tType "raw".data || jEqStr tType "none".data || jEqStr tType []
    let p' := if isBad then jDel p "transport".data else p
    some (p', jEqStr tType "xhttp".data)
  | some _ => none

/-- `filter_supported_v2ray_configs`, one descriptor: returns the kept
descriptor (if any) and the post-state of the dict after the in-place
transport stripping.  `none` in the first component covers both the explicit
`continue`s and the swallowed exceptions. -/
def filterOne (j : Json) : Option Json × Json :=
  match j with
  | .obj p =>
    match jGet? p "type".data with
    | none => (none, j)
    | some ty =>
      match ssCheck ty p with
      | none => (none, j)
      | some true => (none, j)
      | some false =>
        match transportStep p with
        | none => (none, j)
        | some (p', dropX) =>
          if dropX then (none, .obj p')
          else if pyTruthy (jGetD p' "server".data .null) &&
                  pyTruthy (jGetD p' "server_port".data .null) then
            (some (.obj p'), .obj p')
          else (none, .obj p')
  | _ => (none, j)

def filter_supported_v2ray_configs (configs : List V2rayConfig) : List V2rayConfig :=
  configs.filterMap fun c =>
    match (filterOne c.parsed_data).1 with
    | some p' => some ⟨c.link, p'⟩
    | none => none

/-- The state of an input descriptor after `filter_supported_v2ray_configs`
ran over it (the source mutates the dicts in place). -/
def filterPost (c : V2rayConfig) : V2rayConfig := ⟨c.link, (filterOne c.parsed_data).2⟩

/-- `run_batch` output: the probe results plus the `failed_batch_<n>.json`
artifact (name and saved JSON) when one is written. -/
structure RunBatchResult where
  results : List ProbeResult
  failedArtifact : Option (List Char × Json)

/-- `run_batch`: on readiness failure every slot becomes
`fail("Batch Failed")`, and the mass config is copied to a numbered artifact
exactly when the child process has already exited; otherwise all slots are
probed concurrently and collected in completion order. -/
def run_batch (env : BatchEnv) (batchId : Nat) (batch : List V2rayConfig) : RunBatchResult :=
  let massConf := generate_mass_config batch
  if env.portOpens then
    { results := env.collect (batch.enum.map fun p => ping_proxy env.outcome p.1 p.2.link),
      failedArtifact := none }
  else
    { results := batch.map fun c => ⟨c.link, -1, "fail".data, "Batch Failed".data⟩,
      failedArtifact :=
        if env.processDied then
          some (("failed_batch_".data ++ (toString batchId).data ++ ".json".data), massConf)
        else none }

/-- Contiguous batches of `BATCH_SIZE` (`v2ray_configs[i : i + BATCH_SIZE]`). -/
def batchesOf : List V2rayConfig → List (List V2rayConfig)
  | [] => []
  | c :: t => ((c :: t).take BATCH_SIZE) :: batchesOf ((c :: t).drop BATCH_SIZE)
termination_by l => l.length
decreasing_by
  simp only [List.length_drop, List.length_cons, BATCH_SIZE]
  omega

/-- What one round of `test_latency` appends to the sink, plus the residual. -/
structure RoundOutput where
  csvRows : List ProbeResult
  activeLines : List (List Char)
  residual : List V2rayConfig

/-- The per-batch loop body of `test_latency`: filter successes, append them
to both sinks, and drop their links from the inactive list. -/
def testLatencyGo (env : Nat → BatchEnv) :
    List (Nat × List V2rayConfig) → List V2rayConfig → RoundOutput
  | [], inactive => ⟨[], [], inactive⟩
  | (bi, batch) :: rest, inactive =>
    let results := (run_batch (env (bi + 1)) (bi + 1) batch).results
    let active := results.filter fun r => r.status = "success".data
    let inactive' := inactive.filter fun vc => !(active.any fun r => r.config = vc.link)
    let out := testLatencyGo env rest inactive'
    ⟨active ++ out.csvRows, active.map (fun r => pyStrip r.config) ++ out.activeLines,
      out.residual⟩

/-- `test_latency(v2ray_configs)`: run every batch, sink the successes, and
return the configs that never succeeded this round. -/
def test_latency (env : Nat → BatchEnv) (configs : List V2rayConfig) : RoundOutput :=
  testLatencyGo env (batchesOf configs).enum configs

/-- The retry loop of `main`: up to `MAX_RETRIES` rounds over the residual
set, stopping early when it empties.  Returns the accumulated CSV rows and
the number of rounds actually run. -/
def mainLoop (env : Nat → Nat → BatchEnv) : Nat → Nat → List V2rayConfig →
    List ProbeResult × Nat
  | _, 0, _ => ([], 0)
  | k, fuel + 1, s =>
    if s.isEmpty then ([], 0)
    else
      let r := test_latency (env k) s
      let rest := mainLoop env (k + 1) fuel r.residual
      (r.csvRows ++ rest.1, rest.2 + 1)

/-- The residual set `S_k` after `k` rounds (round `k` is driven by `env k`). -/
def residualAfter (env : Nat → Nat → BatchEnv) (s0 : List V2rayConfig) : Nat → List V2rayConfig
  | 0 => s0
  | k + 1 => (test_latency (env k) (residualAfter env s0 k)).residual

/-- The final in-place rewrite of `main`: re-read the CSV rows and sort them
by integer latency ascending (`final_rows.sort(key=...)`, a stable sort; the
CSV string round-trip through `int(float(_))` is the identity on the integer
latencies involved). -/
def finalRows (env : Nat → Nat → BatchEnv) (s0 : List V2rayConfig) : List ProbeResult :=
  pySorted (fun a b => a.latency < b.latency) (mainLoop env 0 MAX_RETRIES s0).1

/-! ### General lemmas about the primitives -/

theorem splitOnceChar_not_mem {sep : Char} {l : List Char} (h : sep ∉ l) :
    splitOnceChar sep l = none := by
  induction l with
  | nil => rfl
  | cons c t ih =>
    simp only [List.mem_cons, not_or] at h
    simp [splitOnceChar, h.1, Ne.symm h.1, ih h.2]

theorem splitOnceChar_append {sep : Char} {a : List Char} (b : List Char) (ha : sep ∉ a) :
    splitOnceChar sep (a ++ sep :: b) = some (a, b) := by
  induction a with
  | nil => simp [splitOnceChar]
  | cons c t ih =>
    simp only [List.mem_cons, not_or] at ha
    simp [splitOnceChar, Ne.symm ha.1, ha.1, ih ha.2]

theorem rsplitOnceChar_not_mem {sep : Char} {l : List Char} (h : sep ∉ l) :
    rsplitOnceChar sep l = none := by
  have h' : sep ∉ l.reverse := by simpa using h
  simp [rsplitOnceChar, splitOnceChar_not_mem h']

theorem rsplitOnceChar_append {sep : Char} {b : List Char} (a : List Char) (hb : sep ∉ b) :
    rsplitOnceChar sep (a ++ sep :: b) = some (a, b) := by
  have hrev : (a ++ sep :: b).reverse = b.reverse ++ sep :: a.reverse := by
    simp [List.reverse_append]
  rw [rsplitOnceChar, hrev, splitOnceChar_append a.reverse (by simpa using hb)]
  simp

theorem pyStrip_nospace {l : List Char} (h : ∀ c ∈ l, pyIsSpace c = false) :
    pyStrip l = l := by
  have key : ∀ m : List Char, (∀ c ∈ m, pyIsSpace c = false) → m.dropWhile pyIsSpace = m := by
    intro m hm
    cases m with
    | nil => rfl
    | cons a t => simp [List.dropWhile_cons, hm a (by simp)]
  unfold pyStrip
  rw [key l h, key l.reverse (by intro c hc; exact h c (by simpa using hc)),
    List.reverse_reverse]

theorem isDigitC_ne_colon {c : Char} (h : isDigitC c = true) : c ≠ ':' := by
  intro he
  subst he
  exact absurd h (by decide)

theorem colon_not_mem_digits {l : List Char} (h : l.all isDigitC = true) : ':' ∉ l := by
  intro hmem
  have := (List.all_eq_true.mp h) _ hmem
  exact isDigitC_ne_colon this rfl

theorem pyStartsWith_append (pre rest : List Char) :
    pyStartsWith pre (pre ++ rest) = true := by
  simp [pyStartsWith, List.isPrefixOf_iff_prefix]

/-- `filterMap` refines `map` when kept values agree with the map. -/
theorem filterMap_sublist_map {α β : Type} {f : α → Option β} {g : α → β}
    (h : ∀ a b, f a = some b → b = g a) :
    ∀ l : List α, (l.filterMap f).Sublist (l.map g) := by
  intro l
  induction l with
  | nil => simp
  | cons a t ih =>
    cases hfa : f a with
    | none => simpa [List.filterMap_cons, hfa] using ih.cons (g a)
    | some b =>
      have hb := h a b hfa
      simpa [List.filterMap_cons, hfa, hb] using ih.cons₂ (g a)

/-! ### Claim C5: readiness-poll failure marks the whole batch failed -/

/-- C5: when the readiness poll on `127.0.0.1:BASE_PORT` fails, `run_batch`
returns exactly one `fail` / latency `-1` / `"Batch Failed"` row per slot, in
slot order, and the batch JSON is persisted as `failed_batch_<n>.json`
exactly when the child process has already exited. -/
theorem run_batch_readiness_failure (env : BatchEnv) (batchId : Nat)
    (batch : List V2rayConfig) (h : env.portOpens = false) :
    (run_batch env batchId batch).results =
      batch.map (fun c => ⟨c.link, -1, "fail".data, "Batch Failed".data⟩) ∧
    (run_batch env batchId batch).results.length = batch.length ∧
    (run_batch env batchId batch).failedArtifact =
      (if env.processDied then
        some (("failed_batch_".data ++ (toString batchId).data ++ ".json".data),
          generate_mass_config batch)
       else none) := by
  refine ⟨by simp [run_batch, h], ?_, by simp [run_batch, h]⟩
  simp [run_batch, h]

theorem run_batch_readiness_failure_witness :
    (⟨false, true, fun _ _ => .timeout, id⟩ : BatchEnv).portOpens = false ∧
    ((run_batch ⟨false, true, fun _ _ => .timeout, id⟩ 7
        [⟨"vless://a".data, .obj []⟩, ⟨"ss://b".data, .obj []⟩]).results =
      ([⟨"vless://a".data, .obj []⟩, ⟨"ss://b".data, .obj []⟩] : List V2rayConfig).map
        (fun c => (⟨c.link, -1, "fail".data, "Batch Failed".data⟩ : ProbeResult)) ∧
     (run_batch ⟨false, true, fun _ _ => .timeout, id⟩ 7
        [⟨"vless://a".data, .obj []⟩, ⟨"ss://b".data, .obj []⟩]).results.length = 2 ∧
     (run_batch ⟨false, true, fun _ _ => .timeout, id⟩ 7
        [⟨"vless://a".data, .obj []⟩, ⟨"ss://b".data, .obj []⟩]).failedArtifact =
       (if (⟨false, true, fun _ _ => .timeout, id⟩ : BatchEnv).processDied then
         some (("failed_batch_".data ++ (toString 7).data ++ ".json".data),
           generate_mass_config [⟨"vless://a".data, .obj []⟩, ⟨"ss://b".data, .obj []⟩])
        else none)) :=
  ⟨rfl, run_batch_readiness_failure _ 7 _ rfl⟩

/-! ### Claim C8: shadowsocks IPv6 host-port parsing -/

/-- Field access on a parse result: `parse_link(...)["k"]`. -/
def parsedField? (e : Except Unit Json) (k : List Char) : Option Json :=
  match e with
  | .ok (.obj o) => jGet? o k
  | _ => none

/-- C8: for a bracketed IPv6 literal followed by a port, the host-port split
is taken at the rightmost colon, the brackets are stripped, and `parse_link`
on an `ss://` link with such a server part returns that host and port.  The
host is quantified over colon-containing literals (`ds` is the port's digit
string). -/
theorem ss_ipv6_host_port (host ds : List Char)
    (hds : ds ≠ [] ∧ ds.all isDigitC = true) :
    parse_server_host_port ('[' :: host ++ ']' :: ':' :: ds) =
      .ok (host, (digitsVal ds : Int)) ∧
    parsedField? (parse_link ("ss://u:p@[".data ++ "2001:db8::1".data ++ "]:8388#t".data))
      "server".data = some (.str "2001:db8::1".data) ∧
    parsedField? (parse_link ("ss://u:p@[".data ++ "2001:db8::1".data ++ "]:8388#t".data))
      "server_port".data = some (.num 8388) := by
  refine ⟨?_, by rfl, by rfl⟩
  have hsplit : rsplitOnceChar ':' ('[' :: host ++ ']' :: ':' :: ds) =
      some ('[' :: host ++ [']'], ds) := by
    have h2 : rsplitOnceChar ':' (('[' :: host ++ [']']) ++ ':' :: ds) =
        some ('[' :: host ++ [']'], ds) :=
      rsplitOnceChar_append ('[' :: host ++ [']']) (colon_not_mem_digits hds.2)
    simpa using h2
  rw [parse_server_host_port, hsplit]
  have hint : pyIntOfStr? ds = some (digitsVal ds) := by
    simp [pyIntOfStr?, hds.1, hds.2]
  simp [hint]

theorem ss_ipv6_host_port_witness :
    ("8388".data ≠ [] ∧ "8388".data.all isDigitC = true) ∧
    (parse_server_host_port ('[' :: "2001:db8::1".data ++ ']' :: ':' :: "8388".data) =
      .ok ("2001:db8::1".data, (digitsVal "8388".data : Int)) ∧
    parsedField? (parse_link ("ss://u:p@[".data ++ "2001:db8::1".data ++ "]:8388#t".data))
      "server".data = some (.str "2001:db8::1".data) ∧
    parsedField? (parse_link ("ss://u:p@[".data ++ "2001:db8::1".data ++ "]:8388#t".data))
      "server_port".data = some (.num 8388)) :=
  ⟨⟨by decide, by decide⟩, ss_ipv6_host_port "2001:db8::1".data "8388".data ⟨by decide, by decide⟩⟩

/-! ### Claim C10: fallback fingerprint for unrecognized schemes -/

/-- An input that matches none of `generate_fingerprint`'s scheme tests. -/
def noSchemeMatch (s : List Char) : Bool :=
  !(pyStartsWith "vmess://".data s || pyStartsWith "ss://".data s ||
    pyStartsWith "vless://".data s || pyStartsWith "trojan://".data s ||
    pyStartsWith "tuic://".data s || pyStartsWith "hysteria".data s)

theorem generate_fingerprint_fallback {s : List Char} (h : noSchemeMatch s = true) :
    generate_fingerprint s = some s := by
  simp only [noSchemeMatch, Bool.not_eq_eq_eq_not, Bool.not_true, Bool.or_eq_false_iff] at h
  obtain ⟨⟨⟨⟨⟨h1, h2⟩, h3⟩, h4⟩, h5⟩, h6⟩ := h
  simp [generate_fingerprint, h1, h2, h3, h4, h5, h6]

theorem removeDupAux_eq_dedupFirstAux {configs : List (List Char)}
    (h : ∀ c ∈ configs, c ≠ [] ∧ noSchemeMatch c = true) :
    ∀ seen, removeDupAux configs seen = dedupFirstAux configs seen := by
  induction configs with
  | nil => intro seen; rfl
  | cons c rest ih =>
    intro seen
    obtain ⟨hc, hns⟩ := h c (by simp)
    have hrest := fun x hx => h x (List.mem_cons_of_mem _ hx)
    rw [removeDupAux, generate_fingerprint_fallback hns]
    simp only [hc, if_false]
    rw [dedupFirstAux]
    by_cases hmem : seen.contains c
    · simp [hmem, ih hrest]
    · simp [hmem, ih hrest]

/-- C10 (amended): for every NON-EMPTY string matching none of the recognized
scheme prefixes, `generate_fingerprint` returns the string itself, and on a
list of such strings `remove_duplicates` is exactly first-occurrence
deduplication by string equality. -/
theorem fallback_fingerprint (s : List Char) (hs : s ≠ []) (hns : noSchemeMatch s = true)
    (configs : List (List Char)) (hc : ∀ c ∈ configs, c ≠ [] ∧ noSchemeMatch c = true) :
    generate_fingerprint s = some s ∧ remove_duplicates configs = dedupFirst configs :=
  ⟨generate_fingerprint_fallback hns, removeDupAux_eq_dedupFirstAux hc []⟩

theorem fallback_fingerprint_witness :
    ("socks5://x".data ≠ [] ∧ noSchemeMatch "socks5://x".data = true) ∧
    generate_fingerprint "socks5://x".data = some "socks5://x".data ∧
    remove_duplicates ["a".data, "b".data, "a".data] =
      dedupFirst ["a".data, "b".data, "a".data] :=
  ⟨⟨by decide, by decide⟩,
    fallback_fingerprint "socks5://x".data (by decide) (by decide)
      ["a".data, "b".data, "a".data] (by decide)⟩

/-- C10 counterexample: the empty string matches no scheme prefix, yet its
fingerprint is the empty (falsy) string, so `remove_duplicates` drops it
instead of keeping it — refuting the claim's "never an empty fingerprint;
such links are kept" at the concrete input `""`. -/
theorem fallback_fingerprint_empty_cex :
    generate_fingerprint [] = some [] ∧ remove_duplicates [[]] = [] ∧
    ¬ (([] : List Char) ∈ remove_duplicates [[]]) :=
  ⟨rfl, rfl, by
    intro hmem
    rw [show remove_duplicates [[]] = [] from rfl] at hmem
    exact absurd hmem (List.not_mem_nil _)⟩

/-! ### Claim C6: the descriptor filter -/

theorem jGet?_jDel (o : List (List Char × Json)) (k : List Char) :
    jGet? (jDel o k) k = none := by
  induction o with
  | nil => rfl
  | cons p t ih =>
    rw [jDel, List.filter_cons]
    by_cases h : p.1 = k
    · rw [show (p.1 != k) = false by simp [h]]
      simpa [jDel] using ih
    · rw [show (p.1 != k) = true by simp [h]]
      rw [if_pos rfl, jGet?, List.find?_cons,
        show (decide (p.1 = k)) = false by simp [h]]
      simpa [jGet?, jDel] using ih

theorem jGet?_jDel_ne (o : List (List Char × Json)) {k k' : List Char} (h : k' ≠ k) :
    jGet? (jDel o k) k' = jGet? o k' := by
  induction o with
  | nil => rfl
  | cons p t ih =>
    rw [jDel, List.filter_cons]
    by_cases hk : p.1 = k
    · have hk' : (p.1 = k') = False := by
        simp only [eq_iff_iff, iff_false]
        rw [hk]
        exact fun he => h he.symm
      rw [show (p.1 != k) = false by simp [hk]]
      rw [show jGet? (p :: t) k' = jGet? t k' by
        rw [jGet?, List.find?_cons, show (decide (p.1 = k')) = false by simp [hk']]; rfl]
      simpa [jDel] using ih
    · rw [show (p.1 != k) = true by simp [hk], if_pos rfl]
      by_cases hk2 : p.1 = k'
      · rw [jGet?, List.find?_cons, show (decide (p.1 = k')) = true by simp [hk2],
          jGet?, List.find?_cons, show (decide (p.1 = k')) = true by simp [hk2]]
      · rw [jGet?, List.find?_cons, show (decide (p.1 = k')) = false by simp [hk2],
          jGet?, List.find?_cons, show (decide (p.1 = k')) = false by simp [hk2]]
        simpa [jGet?, jDel] using ih

theorem transportStep_preserves {p p' : List (List Char × Json)} {dropX : Bool}
    (h : transportStep p = some (p', dropX)) {k : List Char}
    (hk : k ≠ "transport".data) : jGet? p' k = jGet? p k := by
  unfold transportStep at h
  split at h
  · injection h with h'
    cases h'
    rfl
  next t heq =>
    simp only [Option.some.injEq, Prod.mk.injEq] at h
    obtain ⟨hp', -⟩ := h
    subst hp'
    split
    · exact jGet?_jDel_ne p hk
    · rfl
  · exact absurd h (by simp)

def goodTransportType (tf : List (List Char × Json)) : Prop :=
  jEqStr (jGetD tf "type".data (.str [])) "xhttp".data = false ∧
  jEqStr (jGetD tf "type".data (.str [])) "tcp".data = false ∧
  jEqStr (jGetD tf "type".data (.str [])) "raw".data = false ∧
  jEqStr (jGetD tf "type".data (.str [])) "none".data = false ∧
  jEqStr (jGetD tf "type".data (.str [])) [] = false

theorem transportStep_goodTransport {p p' : List (List Char × Json)}
    (h : transportStep p = some (p', false)) {t : Json}
    (ht : jGet? p' "transport".data = some t) :
    ∃ tf, t = .obj tf ∧ goodTransportType tf := by
  unfold transportStep at h
  split at h
  next hnone =>
    injection h with h'
    cases h'
    rw [hnone] at ht
    exact absurd ht (by simp)
  next t0 heq =>
    simp only [Option.some.injEq, Prod.mk.injEq] at h
    obtain ⟨hp', hdrop⟩ := h
    by_cases hbad : (jEqStr (jGetD t0 "type".data (.str [])) "xhttp".data ||
        jEqStr (jGetD t0 "type".data (.str [])) "tcp".data ||
        jEqStr (jGetD t0 "type".data (.str [])) "raw".data ||
        jEqStr (jGetD t0 "type".data (.str [])) "none".data ||
        jEqStr (jGetD t0 "type".data (.str [])) []) = true
    · rw [if_pos hbad] at hp'
      subst hp'
      rw [jGet?_jDel] at ht
      exact absurd ht (by simp)
    · rw [if_neg hbad] at hp'
      subst hp'
      rw [heq] at ht
      injection ht with ht'
      subst ht'
      refine ⟨t0, rfl, ?_⟩
      simp only [Bool.or_eq_true, not_or, Bool.not_eq_true] at hbad
      exact ⟨hbad.1.1.1.1, hbad.1.1.1.2, hbad.1.1.2, hbad.1.2, hbad.2⟩
  · exact absurd h (by simp)

theorem ssCheck_ok {ty : Json} {p : List (List Char × Json)}
    (h : ssCheck ty p = some false) (hss : jEqStr ty "shadowsocks".data = true) :
    (∃ m, jGetD p "method".data (.str []) = .str m ∧
      VALID_SS_METHODS.contains (pyLower m) = true) ∧
    (∀ s, jGet? p "password".data = some (.str s) → s ≠ []) := by
  unfold ssCheck at h
  rw [if_pos hss] at h
  split at h
  next m hm =>
    split at h
    · exact absurd h (by simp)
    next hcont =>
      refine ⟨⟨m, hm, by simpa using hcont⟩, ?_⟩
      intro s hs hse
      rw [hs, hse] at h
      simp at h
  next hnotstr => exact absurd h (by simp)

/-- All the facts the filter guarantees about a kept descriptor, plus the
agreement of the kept value with the post-mutation state. -/
theorem filterOne_kept {j p' post : Json} (h : filterOne j = (some p', post)) :
    post = p' ∧
    ∃ o, p' = .obj o ∧
      pyTruthy (jGetD o "server".data .null) = true ∧
      pyTruthy (jGetD o "server_port".data .null) = true ∧
      (∀ t, jGet? o "transport".data = some t → ∃ tf, t = .obj tf ∧ goodTransportType tf) ∧
      (jEqStr (jGetD o "type".data .null) "shadowsocks".data = true →
        (∃ m, jGetD o "method".data (.str []) = .str m ∧
          VALID_SS_METHODS.contains (pyLower m) = true) ∧
        (∀ s, jGet? o "password".data = some (.str s) → s ≠ [])) := by
  unfold filterOne at h
  split at h
  next p =>
    split at h
    · exact absurd h (by simp)
    next ty hty =>
      split at h
      · exact absurd h (by simp)
      · exact absurd h (by simp)
      next hsc =>
        split at h
        · exact absurd h (by simp)
        next p'' dropX hts =>
          split at h
          · exact absurd h (by simp)
          next hdrop =>
            have hdx : dropX = false := by
              revert hdrop; cases dropX <;> simp
            subst hdx
            split at h
            case isTrue htr =>
              simp only [Prod.mk.injEq, Option.some.injEq] at h
              obtain ⟨rfl, rfl⟩ := h
              simp only [Bool.and_eq_true] at htr
              refine ⟨rfl, p'', rfl, htr.1, htr.2, ?_, ?_⟩
              · intro t ht
                exact transportStep_goodTransport hts ht
              · intro hty2
                have hpres : jGet? p'' "type".data = jGet? p "type".data :=
                  transportStep_preserves hts (by decide)
                have htyeq : jGetD p'' "type".data .null = ty := by
                  rw [jGetD, hpres, hty]; rfl
                rw [htyeq] at hty2
                have hok := ssCheck_ok hsc hty2
                have hm : jGet? p'' "method".data = jGet? p "method".data :=
                  transportStep_preserves hts (by decide)
                have hpw : jGet? p'' "password".data = jGet? p "password".data :=
                  transportStep_preserves hts (by decide)
                refine ⟨?_, ?_⟩
                · obtain ⟨⟨m, hm1, hm2⟩, -⟩ := hok
                  exact ⟨m, by rw [jGetD, hm]; exact hm1, hm2⟩
                · intro s hs
                  exact hok.2 s (by rw [← hpw]; exact hs)
            case isFalse htr => exact absurd h (by simp)
  · exact absurd h (by simp)

/-- A descriptor whose transport sub-record has type exactly `"xhttp"` is
dropped by the filter, whatever else it contains. -/
theorem filterOne_xhttp_dropped {p : List (List Char × Json)} {tf : List (List Char × Json)}
    (ht : jGet? p "transport".data = some (.obj tf))
    (hx : jGetD tf "type".data (.str []) = .str "xhttp".data) :
    (filterOne (.obj p)).1 = none := by
  have hts : transportStep p = some (jDel p "transport".data, true) := by
    unfold transportStep
    rw [ht]
    simp [hx, jEqStr]
  unfold filterOne
  split
  next o heq =>
    injection heq with heq'
    subst heq'
    split
    · rfl
    next ty hty =>
      split
      · rfl
      · rfl
      next hsc =>
        rw [hts]
        simp
  next hcontra => exact (hcontra p rfl).elim

/-- C6 (amended): the filter's output is a subsequence of its input *after*
the in-place transport stripping (`X.map filterPost`), every kept descriptor
has a truthy (hence non-empty / non-zero) server and server_port, every kept
shadowsocks descriptor has an allowed method and a password that is not the
empty string, no kept descriptor retains a transport of type
xhttp/tcp/raw/none/"", and a descriptor with an `xhttp` transport is dropped
outright. -/
theorem filter_supported_invariants (X : List V2rayConfig) :
    (filter_supported_v2ray_configs X).Sublist (X.map filterPost) ∧
    (∀ c ∈ filter_supported_v2ray_configs X, ∃ o, c.parsed_data = .obj o ∧
      pyTruthy (jGetD o "server".data .null) = true ∧
      pyTruthy (jGetD o "server_port".data .null) = true ∧
      (∀ s, jGetD o "server".data .null = .str s → s ≠ []) ∧
      (∀ n, jGetD o "server_port".data .null = .num n → n ≠ 0) ∧
      (∀ t, jGet? o "transport".data = some t → ∃ tf, t = .obj tf ∧ goodTransportType tf) ∧
      (jEqStr (jGetD o "type".data .null) "shadowsocks".data = true →
        (∃ m, jGetD o "method".data (.str []) = .str m ∧
          VALID_SS_METHODS.contains (pyLower m) = true) ∧
        (∀ s, jGet? o "password".data = some (.str s) → s ≠ []))) ∧
    (∀ c : V2rayConfig, ∀ p tf, c.parsed_data = .obj p →
      jGet? p "transport".data = some (.obj tf) →
      jGetD tf "type".data (.str []) = .str "xhttp".data →
      (filterOne c.parsed_data).1 = none) := by
  refine ⟨?_, ?_, ?_⟩
  · apply filterMap_sublist_map
    intro c b hfc
    rcases hfo : filterOne c.parsed_data with ⟨fst, post⟩
    cases fst with
    | none => rw [hfo] at hfc; simp at hfc
    | some p' =>
      rw [hfo] at hfc
      simp only [Option.some.injEq] at hfc
      subst hfc
      have hk := (filterOne_kept hfo).1
      simp [filterPost, hfo, hk]
  · intro c hc
    rw [filter_supported_v2ray_configs, List.mem_filterMap] at hc
    obtain ⟨a, -, hfa⟩ := hc
    rcases hfo : filterOne a.parsed_data with ⟨fst, post⟩
    cases fst with
    | none => rw [hfo] at hfa; simp at hfa
    | some p' =>
      rw [hfo] at hfa
      simp only [Option.some.injEq] at hfa
      subst hfa
      obtain ⟨-, o, rfl, h1, h2, h3, h4⟩ := filterOne_kept hfo
      refine ⟨o, rfl, h1, h2, ?_, ?_, h3, h4⟩
      · intro s hs
        rw [hs] at h1
        simpa [pyTruthy] using h1
      · intro n hn
        rw [hn] at h2
        simpa [pyTruthy] using h2
  · intro c p tf hcp ht hx
    rw [hcp]
    exact filterOne_xhttp_dropped ht hx

theorem filter_supported_invariants_witness :
    (filter_supported_v2ray_configs
        [⟨"l".data, .obj [("type".data, .str "vless".data), ("server".data, .str "h".data),
          ("server_port".data, .num 443)]⟩]).Sublist
      ([⟨"l".data, .obj [("type".data, .str "vless".data), ("server".data, .str "h".data),
          ("server_port".data, .num 443)]⟩].map filterPost) ∧
    (filterOne (Json.obj [("type".data, .str "vless".data),
      ("transport".data, .obj [("type".data, .str "xhttp".data)])])).1 = none :=
  ⟨(filter_supported_invariants _).1,
    (filter_supported_invariants [⟨"x".data, .obj [("type".data, .str "vless".data),
        ("transport".data, .obj [("type".data, .str "xhttp".data)])]⟩]).2.2
      ⟨"x".data, .obj [("type".data, .str "vless".data),
        ("transport".data, .obj [("type".data, .str "xhttp".data)])]⟩
      [("type".data, .str "vless".data),
        ("transport".data, .obj [("type".data, .str "xhttp".data)])]
      [("type".data, .str "xhttp".data)] rfl rfl rfl⟩

/-- C6 counterexample: with pure value semantics, the filter's output is NOT
a subsequence of its input — a kept descriptor whose removable transport
(here type `"tcp"`) was stripped in place differs from the input descriptor.
The claim's "subsequence of X" only holds of the post-mutation input. -/
theorem filter_not_subsequence_cex :
    filter_supported_v2ray_configs
        [⟨"l".data, .obj [("type".data, .str "vless".data), ("server".data, .str "h".data),
          ("server_port".data, .num 1),
          ("transport".data, .obj [("type".data, .str "tcp".data)])]⟩] =
      [⟨"l".data, .obj [("type".data, .str "vless".data), ("server".data, .str "h".data),
        ("server_port".data, .num 1)]⟩] ∧
    ¬ (filter_supported_v2ray_configs
        [⟨"l".data, .obj [("type".data, .str "vless".data), ("server".data, .str "h".data),
          ("server_port".data, .num 1),
          ("transport".data, .obj [("type".data, .str "tcp".data)])]⟩]).Sublist
      [⟨"l".data, .obj [("type".data, .str "vless".data), ("server".data, .str "h".data),
        ("server_port".data, .num 1),
        ("transport".data, .obj [("type".data, .str "tcp".data)])]⟩] := by
  constructor
  · rfl
  · intro hsub
    rw [show filter_supported_v2ray_configs
        [⟨"l".data, .obj [("type".data, .str "vless".data), ("server".data, .str "h".data),
          ("server_port".data, .num 1),
          ("transport".data, .obj [("type".data, .str "tcp".data)])]⟩] =
      [⟨"l".data, .obj [("type".data, .str "vless".data), ("server".data, .str "h".data),
        ("server_port".data, .num 1)]⟩] from rfl] at hsub
    have hmem := hsub.subset (List.mem_singleton_self _)
    have heq := List.mem_singleton.mp hmem
    have hlen := congrArg (fun v : V2rayConfig =>
      match v.parsed_data with
      | .obj o => o.length
      | _ => 0) heq
    simp only at hlen
    exact absurd hlen (by decide)

/-! ### Claim C1: retry contraction -/

/-- The successes collected over a round's batches (what gets appended to the
CSV), independent of the inactive-list accumulator. -/
def batchActives (env : Nat → BatchEnv) : List (Nat × List V2rayConfig) → List ProbeResult
  | [] => []
  | (bi, batch) :: rest =>
    ((run_batch (env (bi + 1)) (bi + 1) batch).results.filter
      fun r => r.status = "success".data) ++ batchActives env rest

theorem testLatencyGo_csvRows (env : Nat → BatchEnv) (bs : List (Nat × List V2rayConfig))
    (inactive : List V2rayConfig) :
    (testLatencyGo env bs inactive).csvRows = batchActives env bs := by
  induction bs generalizing inactive with
  | nil => rfl
  | cons hd rest ih =>
    obtain ⟨bi, batch⟩ := hd
    simp [testLatencyGo, batchActives, ih]

theorem testLatencyGo_residual (env : Nat → BatchEnv) (bs : List (Nat × List V2rayConfig))
    (inactive : List V2rayConfig) :
    (testLatencyGo env bs inactive).residual =
      inactive.filter fun vc =>
        !((batchActives env bs).any fun r => r.config = vc.link) := by
  induction bs generalizing inactive with
  | nil => simp [testLatencyGo, batchActives]
  | cons hd rest ih =>
    obtain ⟨bi, batch⟩ := hd
    rw [testLatencyGo]
    rw [ih, List.filter_filter]
    rw [batchActives]
    apply List.filter_congr
    intro vc _
    simp only [List.any_append, Bool.not_or]
    rw [Bool.and_comm]

theorem batchActives_success (env : Nat → BatchEnv) (bs : List (Nat × List V2rayConfig)) :
    ∀ r ∈ batchActives env bs, r.status = "success".data := by
  induction bs with
  | nil => intro r hr; exact absurd hr (List.not_mem_nil r)
  | cons hd rest ih =>
    obtain ⟨bi, batch⟩ := hd
    intro r hr
    rw [batchActives] at hr
    rcases List.mem_append.mp hr with hl | hrr
    · have := List.of_mem_filter hl
      simpa using this
    · exact ih r hrr

/-- One round of `test_latency` returns exactly the input configs whose raw
link matches no success row of the round. -/
theorem test_latency_residual (env : Nat → BatchEnv) (configs : List V2rayConfig) :
    (test_latency env configs).residual =
      configs.filter fun vc =>
        !((test_latency env configs).csvRows.any fun r => r.config = vc.link) := by
  rw [test_latency]
  rw [testLatencyGo_residual, testLatencyGo_csvRows]

theorem test_latency_residual_sublist (env : Nat → BatchEnv) (configs : List V2rayConfig) :
    (test_latency env configs).residual.Sublist configs := by
  rw [test_latency_residual]
  exact List.filter_sublist configs

theorem residualAfter_sublist (env : Nat → Nat → BatchEnv) (s0 : List V2rayConfig) :
    ∀ j k, k ≤ j → (residualAfter env s0 j).Sublist (residualAfter env s0 k) := by
  intro j
  induction j with
  | zero =>
    intro k hk
    have : k = 0 := Nat.le_zero.mp hk
    subst this
    exact List.Sublist.refl _
  | succ j ih =>
    intro k hk
    rcases Nat.lt_or_ge k (j + 1) with hlt | hge
    · have hkj : k ≤ j := Nat.lt_succ_iff.mp hlt
      exact (test_latency_residual_sublist _ _).trans (ih k hkj)
    · have : k = j + 1 := Nat.le_antisymm hk hge
      subst this
      exact List.Sublist.refl _

/-- The front-peeling form of `residualAfter`. -/
theorem residualAfter_succ_front (env : Nat → Nat → BatchEnv) (s0 : List V2rayConfig)
    (k : Nat) :
    residualAfter env s0 (k + 1) =
      residualAfter (fun i => env (i + 1)) ((test_latency (env 0) s0).residual) k := by
  induction k with
  | zero => rfl
  | succ k ih => rw [residualAfter, ih, residualAfter]

theorem mainLoop_shift (env : Nat → Nat → BatchEnv) :
    ∀ (fuel k0 : Nat) (s : List V2rayConfig),
      mainLoop env (k0 + 1) fuel s = mainLoop (fun i => env (i + 1)) k0 fuel s := by
  intro fuel
  induction fuel with
  | zero => intro k0 s; rfl
  | succ f ih =>
    intro k0 s
    rw [mainLoop, mainLoop]
    simp only [ih]

/-- If the residual set is empty after `k` rounds, the retry loop of `main`
runs at most `k` rounds. -/
theorem mainLoop_count_le :
    ∀ (k : Nat) (env : Nat → Nat → BatchEnv) (fuel : Nat) (s : List V2rayConfig),
      residualAfter env s k = [] → (mainLoop env 0 fuel s).2 ≤ k := by
  intro k
  induction k with
  | zero =>
    intro env fuel s h0
    have hs : s = [] := h0
    subst hs
    cases fuel with
    | zero => exact Nat.le_refl 0
    | succ f => simp [mainLoop]
  | succ k ih =>
    intro env fuel s h
    cases fuel with
    | zero => simp [mainLoop]
    | succ f =>
      have hshift := mainLoop_shift env f 0 (test_latency (env 0) s).residual
      have hres := residualAfter_succ_front env s k
      rw [hres] at h
      have hrec := ih (fun i => env (i + 1)) f (test_latency (env 0) s).residual h
      rw [← hshift] at hrec
      rw [mainLoop]
      by_cases hs : s.isEmpty
      · simp [hs]
      · have hs' : s.isEmpty = false := by revert hs; cases s.isEmpty <;> simp
        simp only [hs', Bool.false_eq_true, if_false]
        omega

/-- C1: the retry controller contracts by raw-link identity — after each
round the residual set is exactly the previous set minus the links that
probed success (the CSV rows of the round, all of which have
status=success); hence its size never grows, a link that succeeds in a round
is absent from every later residual set (so it is never probed again), and
once the residual set is empty the loop of `main` stops without running
another round. -/
theorem retry_contraction (env : Nat → Nat → BatchEnv) (s0 : List V2rayConfig) (k : Nat) :
    (residualAfter env s0 (k + 1) =
      (residualAfter env s0 k).filter fun vc =>
        !((test_latency (env k) (residualAfter env s0 k)).csvRows.any
          fun r => r.config = vc.link)) ∧
    (∀ r ∈ (test_latency (env k) (residualAfter env s0 k)).csvRows,
      r.status = "success".data) ∧
    (residualAfter env s0 (k + 1)).length ≤ (residualAfter env s0 k).length ∧
    (∀ l, l ∈ (test_latency (env k) (residualAfter env s0 k)).csvRows.map ProbeResult.config →
      ∀ j, k < j → l ∉ (residualAfter env s0 j).map V2rayConfig.link) ∧
    (residualAfter env s0 k = [] → (mainLoop env 0 MAX_RETRIES s0).2 ≤ k) := by
  refine ⟨test_latency_residual _ _, ?_, ?_, ?_, mainLoop_count_le k env MAX_RETRIES s0⟩
  · intro r hr
    rw [test_latency, testLatencyGo_csvRows] at hr
    exact batchActives_success _ _ r hr
  · rw [show residualAfter env s0 (k + 1) =
        (test_latency (env k) (residualAfter env s0 k)).residual from rfl]
    exact (test_latency_residual_sublist _ _).length_le
  · intro l hl j hj
    have hnot1 : l ∉ (residualAfter env s0 (k + 1)).map V2rayConfig.link := by
      intro hmem
      rw [show residualAfter env s0 (k + 1) =
          (test_latency (env k) (residualAfter env s0 k)).residual from rfl,
        test_latency_residual] at hmem
      rw [List.mem_map] at hmem
      obtain ⟨vc, hvc, hlink⟩ := hmem
      have hkeep := List.of_mem_filter hvc
      rw [List.mem_map] at hl
      obtain ⟨r, hr, hrc⟩ := hl
      have : (test_latency (env k) (residualAfter env s0 k)).csvRows.any
          (fun r => r.config = vc.link) = true := by
        rw [List.any_eq_true]
        exact ⟨r, hr, by simp [hrc, hlink]⟩
      rw [this] at hkeep
      exact absurd hkeep (by simp)
    intro hmem
    apply hnot1
    have hsub := (residualAfter_sublist env s0 j (k + 1) hj).map V2rayConfig.link
    exact hsub.subset hmem

theorem retry_contraction_witness :
    residualAfter (fun _ _ => ⟨true, false, fun _ _ => .timeout, id⟩) [] 0 = [] ∧
    (mainLoop (fun _ _ => ⟨true, false, fun _ _ => .timeout, id⟩) 0 MAX_RETRIES []).2 ≤ 0 :=
  ⟨rfl, (retry_contraction (fun _ _ => ⟨true, false, fun _ _ => .timeout, id⟩) [] 0).2.2.2.2 rfl⟩

/-! ### Claim C2: sink soundness -/

theorem mem_of_mem_enum {α : Type} {l : List α} {p : Nat × α} (h : p ∈ l.enum) :
    p.2 ∈ l := by
  have key : ∀ (m : List α) (n : Nat) (q : Nat × α), q ∈ m.enumFrom n → q.2 ∈ m := by
    intro m
    induction m with
    | nil => intro n q hq; exact absurd hq (List.not_mem_nil q)
    | cons a t ih =>
      intro n q hq
      rw [List.enumFrom] at hq
      rcases List.mem_cons.mp hq with h1 | h2
      · subst h1; exact List.mem_cons_self a t
      · exact List.mem_cons_of_mem a (ih (n + 1) q h2)
  exact key l 0 p h

theorem batchesOf_flatten (l : List V2rayConfig) : (batchesOf l).flatten = l := by
  have key : ∀ (n : Nat) (m : List V2rayConfig), m.length ≤ n → (batchesOf m).flatten = m := by
    intro n
    induction n with
    | zero =>
      intro m hm
      have : m = [] := List.length_eq_zero.mp (Nat.le_zero.mp hm)
      subst this
      simp [batchesOf]
    | succ n ih =>
      intro m hm
      cases m with
      | nil => simp [batchesOf]
      | cons c t =>
        rw [batchesOf, List.flatten_cons, ih ((c :: t).drop BATCH_SIZE)
          (by simp only [List.length_drop, List.length_cons, BATCH_SIZE] at *; omega),
          List.take_append_drop]
  exact key l.length l (Nat.le_refl _)

/-- A success row of `run_batch` records a non-negative latency and the raw
link of one of the batch's slots. -/
theorem run_batch_success_row {env : BatchEnv} (hcol : ∀ l, (env.collect l).Perm l)
    {batchId : Nat} {batch : List V2rayConfig} {r : ProbeResult}
    (hr : r ∈ (run_batch env batchId batch).results)
    (hst : r.status = "success".data) :
    0 ≤ r.latency ∧ r.config ∈ batch.map V2rayConfig.link := by
  rw [run_batch] at hr
  by_cases hport : env.portOpens
  · rw [if_pos hport] at hr
    simp only at hr
    rw [(hcol _).mem_iff, List.mem_map] at hr
    obtain ⟨p, hp, hping⟩ := hr
    have hc : p.2 ∈ batch := mem_of_mem_enum hp
    rw [ping_proxy] at hping
    cases houtcome : env.outcome p.1 p.2.link with
    | response code ms =>
      rw [houtcome] at hping
      dsimp only at hping
      by_cases hcode : (code = 200 || code = 204) = true
      · rw [if_pos hcode] at hping
        subst hping
        exact ⟨Int.ofNat_nonneg ms, List.mem_map.mpr ⟨p.2, hc, rfl⟩⟩
      · rw [if_neg hcode] at hping
        subst hping
        exact ((by decide : ¬ (("fail".data : List Char) = "success".data)) hst).elim
    | timeout =>
      rw [houtcome] at hping
      subst hping
      exact ((by decide : ¬ (("fail".data : List Char) = "success".data)) hst).elim
    | exc m =>
      rw [houtcome] at hping
      subst hping
      exact ((by decide : ¬ (("fail".data : List Char) = "success".data)) hst).elim
  · rw [if_neg hport] at hr
    simp only [List.mem_map] at hr
    obtain ⟨c, -, hrc⟩ := hr
    subst hrc
    exact ((by decide : ¬ (("fail".data : List Char) = "success".data)) hst).elim

theorem batchActives_rows {env : Nat → BatchEnv} (hcol : ∀ b l, ((env b).collect l).Perm l)
    {configs : List V2rayConfig} :
    ∀ (bs : List (Nat × List V2rayConfig)), (∀ p ∈ bs, ∀ c ∈ p.2, c ∈ configs) →
      ∀ r ∈ batchActives env bs,
        r.status = "success".data ∧ 0 ≤ r.latency ∧ r.config ∈ configs.map V2rayConfig.link := by
  intro bs
  induction bs with
  | nil => intro _ r hr; exact absurd hr (List.not_mem_nil r)
  | cons hd rest ih =>
    obtain ⟨bi, batch⟩ := hd
    intro hsub r hr
    rw [batchActives] at hr
    rcases List.mem_append.mp hr with hl | hrr
    · obtain ⟨hin, hst⟩ := List.mem_filter.mp hl
      have hst' : r.status = "success".data := by simpa using hst
      obtain ⟨hlat, hcfg⟩ := run_batch_success_row (hcol (bi + 1)) hin hst'
      refine ⟨hst', hlat, ?_⟩
      rw [List.mem_map] at hcfg ⊢
      obtain ⟨c, hcb, hcl⟩ := hcfg
      exact ⟨c, hsub (bi, batch) (by simp) c hcb, hcl⟩
    · exact ih (fun p hp => hsub p (List.mem_cons_of_mem _ hp)) r hrr

theorem test_latency_rows {env : Nat → BatchEnv} (hcol : ∀ b l, ((env b).collect l).Perm l)
    {configs : List V2rayConfig} {r : ProbeResult}
    (hr : r ∈ (test_latency env configs).csvRows) :
    r.status = "success".data ∧ 0 ≤ r.latency ∧ r.config ∈ configs.map V2rayConfig.link := by
  rw [test_latency, testLatencyGo_csvRows] at hr
  refine batchActives_rows hcol _ ?_ r hr
  intro p hp c hc
  have hb : p.2 ∈ batchesOf configs := mem_of_mem_enum hp
  have : c ∈ (batchesOf configs).flatten := List.mem_flatten.mpr ⟨p.2, hb, hc⟩
  rwa [batchesOf_flatten] at this

theorem mainLoop_rows {env : Nat → Nat → BatchEnv}
    (hcol : ∀ k b l, ((env k b).collect l).Perm l) :
    ∀ (fuel k : Nat) (s : List V2rayConfig) (r : ProbeResult),
      r ∈ (mainLoop env k fuel s).1 →
      r.status = "success".data ∧ 0 ≤ r.latency ∧ r.config ∈ s.map V2rayConfig.link := by
  intro fuel
  induction fuel with
  | zero => intro k s r hr; exact absurd hr (List.not_mem_nil r)
  | succ f ih =>
    intro k s r hr
    rw [mainLoop] at hr
    by_cases hs : s.isEmpty
    · rw [if_pos hs] at hr
      exact absurd hr (List.not_mem_nil r)
    · rw [if_neg hs] at hr
      simp only at hr
      rcases List.mem_append.mp hr with h1 | h2
      · exact test_latency_rows (hcol k) h1
      · obtain ⟨hst, hlat, hcl⟩ := ih (k + 1) _ r h2
        refine ⟨hst, hlat, ?_⟩
        exact ((test_latency_residual_sublist (env k) s).map V2rayConfig.link).subset hcl

theorem insertStable_perm {α : Type} (lt : α → α → Bool) (x : α) :
    ∀ l : List α, (insertStable lt x l).Perm (x :: l) := by
  intro l
  induction l with
  | nil => exact List.Perm.refl _
  | cons y ys ih =>
    rw [insertStable]
    by_cases hlt : lt x y = true
    · rw [if_pos hlt]
    · rw [if_neg hlt]
      exact (ih.cons y).trans (List.Perm.swap x y ys)

theorem pySorted_perm {α : Type} (lt : α → α → Bool) (l : List α) :
    (pySorted lt l).Perm l := by
  have key : ∀ (m : List α) (acc : List α),
      (m.foldl (fun acc x => insertStable lt x acc) acc).Perm (m ++ acc) := by
    intro m
    induction m with
    | nil => intro acc; exact List.Perm.refl _
    | cons x rest ih =>
      intro acc
      rw [List.foldl_cons]
      refine (ih (insertStable lt x acc)).trans ?_
      exact (List.Perm.append_left rest (insertStable_perm lt x acc)).trans List.perm_middle
  simpa using key l []

theorem insertStable_pairwise {α : Type} (lt : α → α → Bool) (le : α → α → Prop)
    (h1 : ∀ a b, lt a b = true → le a b) (h2 : ∀ a b, lt a b = false → le b a)
    (h3 : ∀ a b c, le a b → le b c → le a c) (x : α) :
    ∀ l : List α, l.Pairwise le → (insertStable lt x l).Pairwise le := by
  intro l
  induction l with
  | nil => intro _; exact List.pairwise_cons.mpr ⟨by intro b hb; exact absurd hb (by simp), .nil⟩
  | cons y ys ih =>
    intro hp
    obtain ⟨hy, hys⟩ := List.pairwise_cons.mp hp
    rw [insertStable]
    by_cases hlt : lt x y = true
    · rw [if_pos hlt]
      refine List.pairwise_cons.mpr ⟨?_, hp⟩
      intro z hz
      rcases List.mem_cons.mp hz with rfl | hzys
      · exact h1 x z hlt
      · exact h3 x y z (h1 x y hlt) (hy z hzys)
    · rw [if_neg hlt]
      refine List.pairwise_cons.mpr ⟨?_, ih hys⟩
      intro z hz
      have hz' : z ∈ x :: ys := (insertStable_perm lt x ys).mem_iff.mp hz
      rcases List.mem_cons.mp hz' with rfl | hzys
      · have hfalse : lt z y = false := by revert hlt; cases lt z y <;> simp
        exact h2 z y hfalse
      · exact hy z hzys

theorem pySorted_pairwise {α : Type} (lt : α → α → Bool) (le : α → α → Prop)
    (h1 : ∀ a b, lt a b = true → le a b) (h2 : ∀ a b, lt a b = false → le b a)
    (h3 : ∀ a b c, le a b → le b c → le a c) (l : List α) :
    (pySorted lt l).Pairwise le := by
  have key : ∀ (m : List α) (acc : List α), acc.Pairwise le →
      (m.foldl (fun acc x => insertStable lt x acc) acc).Pairwise le := by
    intro m
    induction m with
    | nil => intro acc h; exact h
    | cons x rest ih =>
      intro acc h
      rw [List.foldl_cons]
      exact ih _ (insertStable_pairwise lt le h1 h2 h3 x acc h)
  exact key l [] .nil

/-- C2: every data row of the final, rewritten CSV has status=success,
integer latency ≥ 0, and a config equal to the raw link of some input
descriptor; the final rows are sorted by integer latency ascending. -/
theorem sink_soundness (env : Nat → Nat → BatchEnv)
    (hcol : ∀ k b l, ((env k b).collect l).Perm l) (s0 : List V2rayConfig) :
    (∀ r ∈ finalRows env s0,
      r.status = "success".data ∧ 0 ≤ r.latency ∧ r.config ∈ s0.map V2rayConfig.link) ∧
    (finalRows env s0).Pairwise (fun a b => a.latency ≤ b.latency) := by
  constructor
  · intro r hr
    rw [finalRows] at hr
    have := (pySorted_perm _ _).mem_iff.mp hr
    exact mainLoop_rows hcol MAX_RETRIES 0 s0 r this
  · rw [finalRows]
    refine pySorted_pairwise _ _ ?_ ?_ ?_ _
    · intro a b h
      have : a.latency < b.latency := by simpa using h
      exact Int.le_of_lt this
    · intro a b h
      have : ¬ a.latency < b.latency := by simpa using h
      omega
    · intro a b c hab hbc
      exact Int.le_trans hab hbc

theorem sink_soundness_witness :
    (∀ (k b : Nat) (l : List ProbeResult),
      (((fun (_ _ : Nat) => (⟨true, false, fun _ _ => .response 204 50, id⟩ : BatchEnv))
        k b).collect l).Perm l) ∧
    ((∀ r ∈ finalRows (fun _ _ => ⟨true, false, fun _ _ => .response 204 50, id⟩)
        [⟨"vless://a".data, .obj []⟩],
      r.status = "success".data ∧ 0 ≤ r.latency ∧
        r.config ∈ [⟨"vless://a".data, .obj []⟩].map V2rayConfig.link) ∧
     (finalRows (fun _ _ => ⟨true, false, fun _ _ => .response 204 50, id⟩)
        [⟨"vless://a".data, .obj []⟩]).Pairwise (fun a b => a.latency ≤ b.latency)) :=
  ⟨fun _ _ l => List.Perm.refl l,
    sink_soundness (fun _ _ => ⟨true, false, fun _ _ => .response 204 50, id⟩)
      (fun _ _ l => List.Perm.refl l) [⟨"vless://a".data, .obj []⟩]⟩

/-! ### Claim C9: vmess `net` handling -/

theorem parsedField?_ok_obj (o : List (List Char × Json)) (k : List Char) :
    parsedField? (.ok (.obj o)) k = jGet? o k := rfl

theorem jGet?_append_single_ne (o1 : List (List Char × Json)) (k2 : List Char) (v2 : Json)
    {k : List Char} (h : ¬ k2 = k) :
    jGet? (o1 ++ [(k2, v2)]) k = jGet? o1 k := by
  rw [jGet?, jGet?, List.find?_append]
  cases hf : (o1.find? fun p => p.1 = k) with
  | some p => rfl
  | none =>
    have hk2 : (decide (k2 = k)) = false := by simpa using h
    simp [List.find?_cons, hk2]

/-- C9 (amended): in `parse_vmess`, `net="raw"` is treated as `net="tcp"`,
and the descriptor carries a transport sub-record exactly when the (possibly
rewritten) `net` value is truthy AND not one of tcp/kcp/quic — in particular
`net=""` (falsy) attaches no transport even though `""` is not in
{tcp, kcp, quic}.  For ws/httpupgrade the transport holds the path (default
`"/"`) and a Host header from `host`; for grpc it holds `service_name` from
`path`; for `net ∈ {tcp, kcp, quic}` and for `net="raw"` no transport record
is attached. -/
theorem vmess_net_transport (link : List Char) (data : List (List Char × Json)) (v : Json)
    (ob : Json)
    (hdec : jsonLoads (safe_base64_decode (link.drop 8)) = some (.obj data))
    (hnet : jGet? data "net".data = some v)
    (hok : parse_vmess link = .ok ob) :
    (parsedField? (.ok ob) "transport".data).isSome =
      (pyTruthy (if jEqStr v "raw".data then Json.str "tcp".data else v) &&
        !(jEqStr (if jEqStr v "raw".data then Json.str "tcp".data else v) "tcp".data ||
          jEqStr (if jEqStr v "raw".data then Json.str "tcp".data else v) "kcp".data ||
          jEqStr (if jEqStr v "raw".data then Json.str "tcp".data else v) "quic".data)) ∧
    (v = .str "ws".data → parsedField? (.ok ob) "transport".data =
      some (.obj [("type".data, v), ("path".data, jGetD data "path".data (.str "/".data)),
        ("headers".data, .obj [("Host".data, jGetD data "host".data (.str []))])])) ∧
    (v = .str "grpc".data → parsedField? (.ok ob) "transport".data =
      some (.obj [("type".data, v),
        ("service_name".data, jGetD data "path".data (.str []))])) ∧
    (v = .str "httpupgrade".data → parsedField? (.ok ob) "transport".data =
      some (.obj [("type".data, v), ("path".data, jGetD data "path".data (.str "/".data)),
        ("headers".data, .obj [("Host".data, jGetD data "host".data (.str []))])])) ∧
    (v = .str "raw".data → parsedField? (.ok ob) "transport".data = none) := by
  have hgetd : jGetD data "net".data (.str "tcp".data) = v := by
    rw [jGetD, hnet]; rfl
  rw [parse_vmess, hdec] at hok
  dsimp only at hok
  rw [hgetd] at hok
  cases hport : pyIntJson? (jGetD data "port".data .null) with
  | none => rw [hport] at hok; exact absurd hok (by simp)
  | some port =>
    rw [hport] at hok
    cases haid : pyIntJson? (jGetD data "aid".data (.num 0)) with
    | none => rw [haid] at hok; exact absurd hok (by simp)
    | some aid =>
      rw [haid] at hok
      dsimp only at hok
      simp only [Except.ok.injEq] at hok
      have hob := hok.symm
      clear hok
      by_cases hraw : jEqStr v "raw".data = true
      · -- v is the string "raw": net becomes "tcp", no transport is attached
        have hv : v = .str "raw".data := by
          cases v <;> simp only [jEqStr] at hraw
          · exact absurd hraw (by simp)
          · exact absurd hraw (by simp)
          · exact absurd hraw (by simp)
          · rename_i s; rw [show s = "raw".data from by simpa using hraw]
          · exact absurd hraw (by simp)
          · exact absurd hraw (by simp)
        rw [if_pos hraw] at hob
        rw [if_neg (by decide : ¬ ((pyTruthy (Json.str "tcp".data) &&
          !(jEqStr (Json.str "tcp".data) "tcp".data || jEqStr (Json.str "tcp".data) "kcp".data ||
            jEqStr (Json.str "tcp".data) "quic".data)) = true))] at hob
        have htr : parsedField? (.ok ob) "transport".data = none := by
          rw [hob]
          rw [parsedField?_ok_obj]
          split
          · rw [jGet?_append_single_ne _ _ _ (by decide)]
            rfl
          · rfl
        rw [if_pos hraw, htr]
        refine ⟨by decide, ?_, ?_, ?_, fun _ => rfl⟩
        · intro hws
          rw [hv] at hws
          injection hws with hws'
          exact absurd hws' (by decide)
        · intro hg
          rw [hv] at hg
          injection hg with hg'
          exact absurd hg' (by decide)
        · intro hhu
          rw [hv] at hhu
          injection hhu with hhu'
          exact absurd hhu' (by decide)
      · rw [if_neg hraw] at hob ⊢
        by_cases hcond : (pyTruthy v && !(jEqStr v "tcp".data || jEqStr v "kcp".data ||
            jEqStr v "quic".data)) = true
        · rw [if_pos hcond] at hob
          have htr : parsedField? (.ok ob) "transport".data = some (.obj
              (if jEqStr v "ws".data = true then
                [("type".data, v)] ++ [("path".data, jGetD data "path".data (.str "/".data)),
                  ("headers".data, .obj [("Host".data, jGetD data "host".data (.str []))])]
              else if jEqStr v "grpc".data = true then
                [("type".data, v)] ++
                  [("service_name".data, jGetD data "path".data (.str []))]
              else if jEqStr v "httpupgrade".data = true then
                [("type".data, v)] ++ [("path".data, jGetD data "path".data (.str "/".data)),
                  ("headers".data, .obj [("Host".data, jGetD data "host".data (.str []))])]
              else [("type".data, v)])) := by
            rw [hob, parsedField?_ok_obj]
            split
            · rw [jGet?_append_single_ne _ _ _ (by decide)]
              rfl
            · rfl
          refine ⟨?_, ?_, ?_, ?_, ?_⟩
          · rw [htr, hcond]
            rfl
          · intro hws
            subst hws
            rw [htr]
            rfl
          · intro hg
            subst hg
            rw [htr]
            rfl
          · intro hhu
            subst hhu
            rw [htr]
            rfl
          · intro hv
            rw [hv] at hraw
            exact absurd rfl hraw
        · have hcondf : (pyTruthy v && !(jEqStr v "tcp".data || jEqStr v "kcp".data ||
              jEqStr v "quic".data)) = false := by
            revert hcond
            cases (pyTruthy v && !(jEqStr v "tcp".data || jEqStr v "kcp".data ||
              jEqStr v "quic".data)) <;> simp
          rw [if_neg hcond] at hob
          have htr : parsedField? (.ok ob) "transport".data = none := by
            rw [hob, parsedField?_ok_obj]
            split
            · rw [jGet?_append_single_ne _ _ _ (by decide)]
              rfl
            · rfl
          refine ⟨?_, ?_, ?_, ?_, ?_⟩
          · rw [htr, hcondf]
            rfl
          · intro hws
            rw [hws] at hcondf
            exact absurd hcondf (by decide)
          · intro hg
            rw [hg] at hcondf
            exact absurd hcondf (by decide)
          · intro hhu
            rw [hhu] at hcondf
            exact absurd hcondf (by decide)
          · intro hv
            rw [hv] at hraw
            exact absurd rfl hraw

theorem vmess_net_transport_witness :
    parse_vmess
      "vmess://eyJhZGQiOiJoIiwicG9ydCI6NDQzLCJpZCI6InUiLCJuZXQiOiJ3cyIsInBhdGgiOiIvcCIsImhvc3QiOiJoaCJ9".data =
      .ok (.obj [("type".data, .str "vmess".data), ("tag".data, .str "vmess-proxy".data),
        ("server".data, .str "h".data), ("server_port".data, .num 443),
        ("uuid".data, .str "u".data), ("alter_id".data, .num 0),
        ("security".data, .str "auto".data),
        ("transport".data, .obj [("type".data, .str "ws".data),
          ("path".data, .str "/p".data),
          ("headers".data, .obj [("Host".data, .str "hh".data)])])]) ∧
    parsedField? (.ok (.obj [("type".data, .str "vmess".data),
        ("tag".data, .str "vmess-proxy".data),
        ("server".data, .str "h".data), ("server_port".data, .num 443),
        ("uuid".data, .str "u".data), ("alter_id".data, .num 0),
        ("security".data, .str "auto".data),
        ("transport".data, .obj [("type".data, .str "ws".data),
          ("path".data, .str "/p".data),
          ("headers".data, .obj [("Host".data, .str "hh".data)])])] : Json))
      "transport".data =
      some (.obj [("type".data, .str "ws".data),
        ("path".data,
          jGetD [("add".data, .str "h".data), ("port".data, .num 443),
            ("id".data, .str "u".data), ("net".data, .str "ws".data),
            ("path".data, .str "/p".data), ("host".data, .str "hh".data)]
            "path".data (.str "/".data)),
        ("headers".data, .obj [("Host".data,
          jGetD [("add".data, .str "h".data), ("port".data, .num 443),
            ("id".data, .str "u".data), ("net".data, .str "ws".data),
            ("path".data, .str "/p".data), ("host".data, .str "hh".data)]
            "host".data (.str []))])]) ∧
    parse_vmess
      "vmess://eyJhZGQiOiJoIiwicG9ydCI6NDQzLCJpZCI6InUiLCJuZXQiOiJodHRwdXBncmFkZSIsInBhdGgiOiIvcCIsImhvc3QiOiJoaCJ9".data =
      .ok (.obj [("type".data, .str "vmess".data), ("tag".data, .str "vmess-proxy".data),
        ("server".data, .str "h".data), ("server_port".data, .num 443),
        ("uuid".data, .str "u".data), ("alter_id".data, .num 0),
        ("security".data, .str "auto".data),
        ("transport".data, .obj [("type".data, .str "httpupgrade".data),
          ("path".data, .str "/p".data),
          ("headers".data, .obj [("Host".data, .str "hh".data)])])]) ∧
    parsedField? (.ok (.obj [("type".data, .str "vmess".data),
        ("tag".data, .str "vmess-proxy".data),
        ("server".data, .str "h".data), ("server_port".data, .num 443),
        ("uuid".data, .str "u".data), ("alter_id".data, .num 0),
        ("security".data, .str "auto".data),
        ("transport".data, .obj [("type".data, .str "httpupgrade".data),
          ("path".data, .str "/p".data),
          ("headers".data, .obj [("Host".data, .str "hh".data)])])] : Json))
      "transport".data =
      some (.obj [("type".data, .str "httpupgrade".data),
        ("path".data,
          jGetD [("add".data, .str "h".data), ("port".data, .num 443),
            ("id".data, .str "u".data), ("net".data, .str "httpupgrade".data),
            ("path".data, .str "/p".data), ("host".data, .str "hh".data)]
            "path".data (.str "/".data)),
        ("headers".data, .obj [("Host".data,
          jGetD [("add".data, .str "h".data), ("port".data, .num 443),
            ("id".data, .str "u".data), ("net".data, .str "httpupgrade".data),
            ("path".data, .str "/p".data), ("host".data, .str "hh".data)]
            "host".data (.str []))])]) :=
  ⟨rfl,
    (vmess_net_transport
      "vmess://eyJhZGQiOiJoIiwicG9ydCI6NDQzLCJpZCI6InUiLCJuZXQiOiJ3cyIsInBhdGgiOiIvcCIsImhvc3QiOiJoaCJ9".data
      [("add".data, .str "h".data), ("port".data, .num 443), ("id".data, .str "u".data),
        ("net".data, .str "ws".data), ("path".data, .str "/p".data),
        ("host".data, .str "hh".data)]
      (.str "ws".data)
      (.obj [("type".data, .str "vmess".data), ("tag".data, .str "vmess-proxy".data),
        ("server".data, .str "h".data), ("server_port".data, .num 443),
        ("uuid".data, .str "u".data), ("alter_id".data, .num 0),
        ("security".data, .str "auto".data),
        ("transport".data, .obj [("type".data, .str "ws".data),
          ("path".data, .str "/p".data),
          ("headers".data, .obj [("Host".data, .str "hh".data)])])])
      rfl rfl rfl).2.1 rfl,
    rfl,
    (vmess_net_transport
      "vmess://eyJhZGQiOiJoIiwicG9ydCI6NDQzLCJpZCI6InUiLCJuZXQiOiJodHRwdXBncmFkZSIsInBhdGgiOiIvcCIsImhvc3QiOiJoaCJ9".data
      [("add".data, .str "h".data), ("port".data, .num 443), ("id".data, .str "u".data),
        ("net".data, .str "httpupgrade".data), ("path".data, .str "/p".data),
        ("host".data, .str "hh".data)]
      (.str "httpupgrade".data)
      (.obj [("type".data, .str "vmess".data), ("tag".data, .str "vmess-proxy".data),
        ("server".data, .str "h".data), ("server_port".data, .num 443),
        ("uuid".data, .str "u".data), ("alter_id".data, .num 0),
        ("security".data, .str "auto".data),
        ("transport".data, .obj [("type".data, .str "httpupgrade".data),
          ("path".data, .str "/p".data),
          ("headers".data, .obj [("Host".data, .str "hh".data)])])])
      rfl rfl rfl).2.2.2.1 rfl⟩

/-- C9 counterexample: a vmess link whose decoded JSON carries `net=""` gets
NO transport sub-record although `""` is not in {tcp, kcp, quic} — refuting
the claim's "transport exactly when net ∉ {tcp, kcp, quic}". -/
theorem vmess_net_empty_cex :
    parse_link "vmess://eyJhZGQiOiJoIiwicG9ydCI6NDQzLCJpZCI6InUiLCJuZXQiOiIifQ==".data =
      .ok (.obj [("type".data, .str "vmess".data), ("tag".data, .str "vmess-proxy".data),
        ("server".data, .str "h".data), ("server_port".data, .num 443),
        ("uuid".data, .str "u".data), ("alter_id".data, .num 0),
        ("security".data, .str "auto".data)]) ∧
    parsedField? (.ok (.obj [("type".data, .str "vmess".data),
        ("tag".data, .str "vmess-proxy".data),
        ("server".data, .str "h".data), ("server_port".data, .num 443),
        ("uuid".data, .str "u".data), ("alter_id".data, .num 0),
        ("security".data, .str "auto".data)] : Json)) "transport".data = none ∧
    ¬ ((Json.str []) = .str "tcp".data ∨ (Json.str []) = .str "kcp".data ∨
       (Json.str []) = .str "quic".data) := by
  refine ⟨rfl, rfl, ?_⟩
  rintro (h | h | h) <;> (injection h with h'; exact absurd h' (by decide))

/-! ### Symbolic-computation lemmas for URLs and query strings -/

theorem splitAllChar_no_sep {sep : Char} {l : List Char} (h : sep ∉ l) :
    splitAllChar sep l = [l] := by
  induction l with
  | nil => rfl
  | cons c t ih =>
    simp only [List.mem_cons, not_or] at h
    rw [splitAllChar, if_neg (Ne.symm h.1), ih h.2]

theorem splitAllChar_append_sep {sep : Char} {a : List Char} (b : List Char) (ha : sep ∉ a) :
    splitAllChar sep (a ++ sep :: b) = a :: splitAllChar sep b := by
  induction a with
  | nil =>
    simp only [List.nil_append]
    rw [splitAllChar, if_pos rfl]
  | cons c t ih =>
    simp only [List.mem_cons, not_or] at ha
    rw [List.cons_append, splitAllChar, if_neg (Ne.symm ha.1), ih ha.2]

theorem plusToSpace_id {l : List Char} (h : '+' ∉ l) : plusToSpace l = l := by
  induction l with
  | nil => rfl
  | cons c t ih =>
    simp only [List.mem_cons, not_or] at h
    simp only [plusToSpace, List.map_cons]
    rw [if_neg (fun he => h.1 he.symm)]
    exact congrArg (c :: ·) (ih h.2)

theorem unquoteAux_id {l : List Char} (h : '%' ∉ l) : ∀ fuel, unquoteAux fuel l = l := by
  induction l with
  | nil => intro fuel; cases fuel <;> rfl
  | cons c t ih =>
    intro fuel
    simp only [List.mem_cons, not_or] at h
    cases fuel with
    | zero => rfl
    | succ f =>
      rw [unquoteAux, if_neg (fun he => h.1 he.symm), ih h.2]

theorem unquote_id {l : List Char} (h : '%' ∉ l) : unquote l = l :=
  unquoteAux_id h l.length

/-- The characters a query-parameter value must avoid for the symbolic
computations below (separators, percent escapes, plus, whitespace). -/
def plainParamChar (c : Char) : Bool :=
  !(c = '#' || c = '?' || c = '&' || c = '%' || c = '+' || pyIsSpace c)

theorem plain_not_mem {P : List Char} (h : P.all plainParamChar = true) :
    '#' ∉ P ∧ '?' ∉ P ∧ '&' ∉ P ∧ '%' ∉ P ∧ '+' ∉ P ∧ (∀ c ∈ P, pyIsSpace c = false) := by
  have key : ∀ c ∈ P, plainParamChar c = true := List.all_eq_true.mp h
  refine ⟨?_, ?_, ?_, ?_, ?_, ?_⟩
  · intro hm; have := key _ hm; simp [plainParamChar] at this
  · intro hm; have := key _ hm; simp [plainParamChar] at this
  · intro hm; have := key _ hm; simp [plainParamChar] at this
  · intro hm; have := key _ hm; simp [plainParamChar] at this
  · intro hm; have := key _ hm; simp [plainParamChar] at this
  · intro c hm; have := key _ hm; simp only [plainParamChar, Bool.not_eq_eq_eq_not,
      Bool.not_true, Bool.or_eq_false_iff] at this
    exact this.2

theorem urlsplit?_parts {url scheme rest1 netloc rest2 q : List Char}
    (h1 : urlSchemeSplit url = (scheme, rest1))
    (h2 : urlNetlocSplit rest1 = (netloc, rest2))
    (hbr : ((netloc.contains '[' && !netloc.contains ']') ||
            (netloc.contains ']' && !netloc.contains '[')) = false)
    (h3 : splitOnceChar '#' rest2 = none)
    (h4 : splitOnceChar '?' rest2 = some ([], q)) :
    urlsplit? url = some ⟨scheme, netloc, [], q, []⟩ := by
  rw [urlsplit?, h1]
  simp only [h2, hbr, h3, h4]
  simp

theorem parseQslSeg_key_val {n v : List Char}
    (hn : '=' ∉ n ∧ '+' ∉ n ∧ '%' ∉ n) (hv : v ≠ [] ∧ '+' ∉ v ∧ '%' ∉ v) :
    parseQslSeg (n ++ '=' :: v) = some (n, v) := by
  rw [parseQslSeg, if_neg (by simp), splitOnceChar_append v hn.1]
  dsimp only
  rw [if_neg hv.1, plusToSpace_id hn.2.1, unquote_id hn.2.2,
    plusToSpace_id hv.2.1, unquote_id hv.2.2]

theorem parseQsl_reality {P S : List Char}
    (hP : P ≠ [] ∧ P.all plainParamChar = true)
    (hS : S ≠ [] ∧ S.all plainParamChar = true) :
    parseQsl ("security=reality&pbk=".data ++ (P ++ ("&sid=".data ++ S))) =
      [("security".data, "reality".data), ("pbk".data, P), ("sid".data, S)] := by
  have hPn := plain_not_mem hP.2
  have hSn := plain_not_mem hS.2
  have e1 : ("security=reality&pbk=".data ++ (P ++ ("&sid=".data ++ S)) : List Char) =
      "security=reality".data ++
        '&' :: (("pbk".data ++ '=' :: P) ++ '&' :: ("sid".data ++ '=' :: S)) := rfl
  have ha2 : '&' ∉ ("pbk".data ++ '=' :: P) := by
    simp only [List.mem_append, List.mem_cons, not_or]
    exact ⟨by decide, by decide, hPn.2.2.1⟩
  have ha3 : '&' ∉ ("sid".data ++ '=' :: S) := by
    simp only [List.mem_append, List.mem_cons, not_or]
    exact ⟨by decide, by decide, hSn.2.2.1⟩
  have hseg2 : parseQslSeg ("pbk".data ++ '=' :: P) = some ("pbk".data, P) :=
    parseQslSeg_key_val (by decide) ⟨hP.1, hPn.2.2.2.2.1, hPn.2.2.2.1⟩
  have hseg3 : parseQslSeg ("sid".data ++ '=' :: S) = some ("sid".data, S) :=
    parseQslSeg_key_val (by decide) ⟨hS.1, hSn.2.2.2.2.1, hSn.2.2.2.1⟩
  rw [parseQsl, e1, splitAllChar_append_sep _ (by decide),
    splitAllChar_append_sep _ ha2, splitAllChar_no_sep ha3]
  simp only [List.filterMap_cons, hseg2, hseg3, List.filterMap_nil]
  rfl

/-- The `reality` sub-record of the parsed descriptor's `tls` record. -/
def realityOf (e : Except Unit Json) : Option Json :=
  match parsedField? e "tls".data with
  | some (.obj t) => jGet? t "reality".data
  | _ => none

/-- C3 (amended): with `security=reality&pbk=P&sid=S` in the query string, a
tuic or hysteria2 link (whose descriptor always carries a TLS record) gets a
`reality` sub-record with `public_key = P` and `short_id = S`; a vless or
trojan link with `security=reality` parses successfully but carries no `tls`
field at all, because `parse_standard_uri` attaches TLS only when
`security=tls` or the protocol is tuic/hysteria2/hy2. -/
theorem reality_record (P S : List Char)
    (hP : P ≠ [] ∧ P.all plainParamChar = true)
    (hS : S ≠ [] ∧ S.all plainParamChar = true) :
    realityOf (parse_link ("tuic://u:p@h:443?security=reality&pbk=".data ++
        (P ++ ("&sid=".data ++ S)))) =
      some (.obj [("enabled".data, .bool true), ("public_key".data, .str P),
        ("short_id".data, .str S)]) ∧
    realityOf (parse_link ("hysteria2://u@h:443?security=reality&pbk=".data ++
        (P ++ ("&sid=".data ++ S)))) =
      some (.obj [("enabled".data, .bool true), ("public_key".data, .str P),
        ("short_id".data, .str S)]) ∧
    parse_link ("vless://u@h:443?security=reality&pbk=".data ++
        (P ++ ("&sid=".data ++ S))) =
      .ok (.obj [("type".data, .str "vless".data),
        ("tag".data, .str "vless-proxy".data),
        ("server".data, .str "h".data), ("server_port".data, .num 443),
        ("uuid".data, .str "u".data)]) ∧
    parse_link ("trojan://u@h:443?security=reality&pbk=".data ++
        (P ++ ("&sid=".data ++ S))) =
      .ok (.obj [("type".data, .str "trojan".data),
        ("tag".data, .str "trojan-proxy".data),
        ("server".data, .str "h".data), ("server_port".data, .num 443),
        ("password".data, .str "u".data)]) := by
  have hPn := plain_not_mem hP.2
  have hSn := plain_not_mem hS.2
  have hqsl := parseQsl_reality hP hS
  have hsec : qsFirstD ("security=reality&pbk=".data ++ (P ++ ("&sid=".data ++ S)))
      "security".data [] = "reality".data := by rw [qsFirstD, hqsl]; rfl
  have hpbk : qsFirstD ("security=reality&pbk=".data ++ (P ++ ("&sid=".data ++ S)))
      "pbk".data [] = P := by rw [qsFirstD, hqsl]; rfl
  have hsid : qsFirstD ("security=reality&pbk=".data ++ (P ++ ("&sid=".data ++ S)))
      "sid".data [] = S := by rw [qsFirstD, hqsl]; rfl
  have hsni : qsFirstD ("security=reality&pbk=".data ++ (P ++ ("&sid=".data ++ S)))
      "sni".data [] = [] := by rw [qsFirstD, hqsl]; rfl
  have hfp0 : qsFirstD ("security=reality&pbk=".data ++ (P ++ ("&sid=".data ++ S)))
      "fp".data [] = [] := by rw [qsFirstD, hqsl]; rfl
  have hcc : qsFirstD ("security=reality&pbk=".data ++ (P ++ ("&sid=".data ++ S)))
      "congestion_control".data "bbr".data = "bbr".data := by rw [qsFirstD, hqsl]; rfl
  have htyq : qsFirstD ("security=reality&pbk=".data ++ (P ++ ("&sid=".data ++ S)))
      "type".data "tcp".data = "tcp".data := by rw [qsFirstD, hqsl]; rfl
  have hflow : qsHas ("security=reality&pbk=".data ++ (P ++ ("&sid=".data ++ S)))
      "flow".data = false := by rw [qsHas, hqsl]; rfl
  have hobfs : qsHas ("security=reality&pbk=".data ++ (P ++ ("&sid=".data ++ S)))
      "obfs".data = false := by rw [qsHas, hqsl]; rfl
  have hhash : '#' ∉ ("?security=reality&pbk=".data ++ (P ++ ("&sid=".data ++ S))) := by
    simp only [List.mem_append, not_or]
    exact ⟨by decide, hPn.1, by decide, hSn.1⟩
  refine ⟨?_, ?_, ?_, ?_⟩
  · -- tuic
    have hnosp : ∀ c ∈ ("tuic://u:p@h:443?security=reality&pbk=".data ++
        (P ++ ("&sid=".data ++ S))), pyIsSpace c = false := by
      intro c hc
      rcases List.mem_append.mp hc with h1 | h1
      · exact (by decide : ∀ c ∈ "tuic://u:p@h:443?security=reality&pbk=".data,
          pyIsSpace c = false) c h1
      rcases List.mem_append.mp h1 with h2 | h2
      · exact hPn.2.2.2.2.2 c h2
      rcases List.mem_append.mp h2 with h3 | h3
      · exact (by decide : ∀ c ∈ "&sid=".data, pyIsSpace c = false) c h3
      · exact hSn.2.2.2.2.2 c h3
    have hdisp : parse_link ("tuic://u:p@h:443?security=reality&pbk=".data ++
        (P ++ ("&sid=".data ++ S))) =
        parse_standard_uri ("tuic://u:p@h:443?security=reality&pbk=".data ++
          (P ++ ("&sid=".data ++ S))) "tuic".data := by
      rw [parse_link, pyStrip_nospace hnosp]; rfl
    have husp : urlsplit? ("tuic://u:p@h:443?security=reality&pbk=".data ++
        (P ++ ("&sid=".data ++ S))) =
        some ⟨"tuic".data, "u:p@h:443".data, [],
          "security=reality&pbk=".data ++ (P ++ ("&sid=".data ++ S)), []⟩ :=
      urlsplit?_parts rfl rfl (by decide) (splitOnceChar_not_mem hhash) rfl
    have hfull : parse_standard_uri ("tuic://u:p@h:443?security=reality&pbk=".data ++
        (P ++ ("&sid=".data ++ S))) "tuic".data =
        .ok (.obj [("type".data, .str "tuic".data),
          ("tag".data, .str "tuic-proxy".data),
          ("server".data, .str "h".data), ("server_port".data, .num 443),
          ("uuid".data, .str "u".data), ("password".data, .str "p".data),
          ("congestion_control".data, .str "bbr".data),
          ("tls".data, .obj [("enabled".data, .bool true),
            ("server_name".data, .str "h".data), ("insecure".data, .bool true),
            ("utls".data, .null),
            ("reality".data, .obj [("enabled".data, .bool true),
              ("public_key".data, .str P), ("short_id".data, .str S)])])]) := by
      rw [parse_standard_uri, husp]
      dsimp only
      rw [show urlPort? "u:p@h:443".data = some (some 443) from rfl]
      dsimp only
      rw [hsec, hsni, hfp0, hcc, htyq, hpbk, hsid]
      rfl
    rw [hdisp, hfull]
    rfl
  · -- hysteria2
    have hnosp : ∀ c ∈ ("hysteria2://u@h:443?security=reality&pbk=".data ++
        (P ++ ("&sid=".data ++ S))), pyIsSpace c = false := by
      intro c hc
      rcases List.mem_append.mp hc with h1 | h1
      · exact (by decide : ∀ c ∈ "hysteria2://u@h:443?security=reality&pbk=".data,
          pyIsSpace c = false) c h1
      rcases List.mem_append.mp h1 with h2 | h2
      · exact hPn.2.2.2.2.2 c h2
      rcases List.mem_append.mp h2 with h3 | h3
      · exact (by decide : ∀ c ∈ "&sid=".data, pyIsSpace c = false) c h3
      · exact hSn.2.2.2.2.2 c h3
    have hdisp : parse_link ("hysteria2://u@h:443?security=reality&pbk=".data ++
        (P ++ ("&sid=".data ++ S))) =
        parse_standard_uri ("hysteria2://u@h:443?security=reality&pbk=".data ++
          (P ++ ("&sid=".data ++ S))) "hysteria2".data := by
      rw [parse_link, pyStrip_nospace hnosp]; rfl
    have husp : urlsplit? ("hysteria2://u@h:443?security=reality&pbk=".data ++
        (P ++ ("&sid=".data ++ S))) =
        some ⟨"hysteria2".data, "u@h:443".data, [],
          "security=reality&pbk=".data ++ (P ++ ("&sid=".data ++ S)), []⟩ :=
      urlsplit?_parts rfl rfl (by decide) (splitOnceChar_not_mem hhash) rfl
    have hfull : parse_standard_uri ("hysteria2://u@h:443?security=reality&pbk=".data ++
        (P ++ ("&sid=".data ++ S))) "hysteria2".data =
        .ok (.obj [("type".data, .str "hysteria2".data),
          ("tag".data, .str "hysteria2-proxy".data),
          ("server".data, .str "h".data), ("server_port".data, .num 443),
          ("password".data, .str "u".data),
          ("tls".data, .obj [("enabled".data, .bool true),
            ("server_name".data, .str "h".data), ("insecure".data, .bool true),
            ("utls".data, .null),
            ("reality".data, .obj [("enabled".data, .bool true),
              ("public_key".data, .str P), ("short_id".data, .str S)])])]) := by
      rw [parse_standard_uri, husp]
      dsimp only
      rw [show urlPort? "u@h:443".data = some (some 443) from rfl]
      dsimp only
      rw [hsec, hsni, hfp0, htyq, hpbk, hsid, hobfs]
      rfl
    rw [hdisp, hfull]
    rfl
  · -- vless
    have hnosp : ∀ c ∈ ("vless://u@h:443?security=reality&pbk=".data ++
        (P ++ ("&sid=".data ++ S))), pyIsSpace c = false := by
      intro c hc
      rcases List.mem_append.mp hc with h1 | h1
      · exact (by decide : ∀ c ∈ "vless://u@h:443?security=reality&pbk=".data,
          pyIsSpace c = false) c h1
      rcases List.mem_append.mp h1 with h2 | h2
      · exact hPn.2.2.2.2.2 c h2
      rcases List.mem_append.mp h2 with h3 | h3
      · exact (by decide : ∀ c ∈ "&sid=".data, pyIsSpace c = false) c h3
      · exact hSn.2.2.2.2.2 c h3
    have hdisp : parse_link ("vless://u@h:443?security=reality&pbk=".data ++
        (P ++ ("&sid=".data ++ S))) =
        parse_standard_uri ("vless://u@h:443?security=reality&pbk=".data ++
          (P ++ ("&sid=".data ++ S))) "vless".data := by
      rw [parse_link, pyStrip_nospace hnosp]; rfl
    have husp : urlsplit? ("vless://u@h:443?security=reality&pbk=".data ++
        (P ++ ("&sid=".data ++ S))) =
        some ⟨"vless".data, "u@h:443".data, [],
          "security=reality&pbk=".data ++ (P ++ ("&sid=".data ++ S)), []⟩ :=
      urlsplit?_parts rfl rfl (by decide) (splitOnceChar_not_mem hhash) rfl
    have hfull : parse_standard_uri ("vless://u@h:443?security=reality&pbk=".data ++
        (P ++ ("&sid=".data ++ S))) "vless".data =
        .ok (.obj [("type".data, .str "vless".data),
          ("tag".data, .str "vless-proxy".data),
          ("server".data, .str "h".data), ("server_port".data, .num 443),
          ("uuid".data, .str "u".data)]) := by
      rw [parse_standard_uri, husp]
      dsimp only
      rw [show urlPort? "u@h:443".data = some (some 443) from rfl]
      dsimp only
      rw [hsec, htyq, hflow]
      rfl
    rw [hdisp, hfull]
  · -- trojan
    have hnosp : ∀ c ∈ ("trojan://u@h:443?security=reality&pbk=".data ++
        (P ++ ("&sid=".data ++ S))), pyIsSpace c = false := by
      intro c hc
      rcases List.mem_append.mp hc with h1 | h1
      · exact (by decide : ∀ c ∈ "trojan://u@h:443?security=reality&pbk=".data,
          pyIsSpace c = false) c h1
      rcases List.mem_append.mp h1 with h2 | h2
      · exact hPn.2.2.2.2.2 c h2
      rcases List.mem_append.mp h2 with h3 | h3
      · exact (by decide : ∀ c ∈ "&sid=".data, pyIsSpace c = false) c h3
      · exact hSn.2.2.2.2.2 c h3
    have hdisp : parse_link ("trojan://u@h:443?security=reality&pbk=".data ++
        (P ++ ("&sid=".data ++ S))) =
        parse_standard_uri ("trojan://u@h:443?security=reality&pbk=".data ++
          (P ++ ("&sid=".data ++ S))) "trojan".data := by
      rw [parse_link, pyStrip_nospace hnosp]; rfl
    have husp : urlsplit? ("trojan://u@h:443?security=reality&pbk=".data ++
        (P ++ ("&sid=".data ++ S))) =
        some ⟨"trojan".data, "u@h:443".data, [],
          "security=reality&pbk=".data ++ (P ++ ("&sid=".data ++ S)), []⟩ :=
      urlsplit?_parts rfl rfl (by decide) (splitOnceChar_not_mem hhash) rfl
    have hfull : parse_standard_uri ("trojan://u@h:443?security=reality&pbk=".data ++
        (P ++ ("&sid=".data ++ S))) "trojan".data =
        .ok (.obj [("type".data, .str "trojan".data),
          ("tag".data, .str "trojan-proxy".data),
          ("server".data, .str "h".data), ("server_port".data, .num 443),
          ("password".data, .str "u".data)]) := by
      rw [parse_standard_uri, husp]
      dsimp only
      rw [show urlPort? "u@h:443".data = some (some 443) from rfl]
      dsimp only
      rw [hsec, htyq]
      rfl
    rw [hdisp, hfull]

/-- C3 witness: the amended theorem instantiated at `P = "PK"`, `S = "SI"`. -/
theorem reality_record_witness :
    (("PK".data : List Char) ≠ [] ∧ "PK".data.all plainParamChar = true) ∧
    (("SI".data : List Char) ≠ [] ∧ "SI".data.all plainParamChar = true) ∧
    (realityOf (parse_link ("tuic://u:p@h:443?security=reality&pbk=".data ++
        ("PK".data ++ ("&sid=".data ++ "SI".data)))) =
      some (.obj [("enabled".data, .bool true), ("public_key".data, .str "PK".data),
        ("short_id".data, .str "SI".data)]) ∧
    realityOf (parse_link ("hysteria2://u@h:443?security=reality&pbk=".data ++
        ("PK".data ++ ("&sid=".data ++ "SI".data)))) =
      some (.obj [("enabled".data, .bool true), ("public_key".data, .str "PK".data),
        ("short_id".data, .str "SI".data)]) ∧
    parse_link ("vless://u@h:443?security=reality&pbk=".data ++
        ("PK".data ++ ("&sid=".data ++ "SI".data))) =
      .ok (.obj [("type".data, .str "vless".data),
        ("tag".data, .str "vless-proxy".data),
        ("server".data, .str "h".data), ("server_port".data, .num 443),
        ("uuid".data, .str "u".data)]) ∧
    parse_link ("trojan://u@h:443?security=reality&pbk=".data ++
        ("PK".data ++ ("&sid=".data ++ "SI".data))) =
      .ok (.obj [("type".data, .str "trojan".data),
        ("tag".data, .str "trojan-proxy".data),
        ("server".data, .str "h".data), ("server_port".data, .num 443),
        ("password".data, .str "u".data)])) :=
  ⟨⟨by decide, by decide⟩, ⟨by decide, by decide⟩,
    reality_record "PK".data "SI".data ⟨by decide, by decide⟩ ⟨by decide, by decide⟩⟩

/-- C3 counterexample: a vless link with `security=reality` and both `pbk` and
`sid` present parses to a descriptor with no `tls` record at all (hence no
reality record), because `parse_standard_uri` attaches TLS only when
`security=tls` or the protocol is tuic/hysteria2/hy2. -/
theorem reality_record_cex :
    parse_link "vless://u@h:443?security=reality&pbk=PK&sid=SI#t".data =
      .ok (.obj [("type".data, .str "vless".data), ("tag".data, .str "t".data),
        ("server".data, .str "h".data), ("server_port".data, .num 443),
        ("uuid".data, .str "u".data)]) ∧
    parsedField? (parse_link "vless://u@h:443?security=reality&pbk=PK&sid=SI#t".data)
      "tls".data = none :=
  ⟨rfl, rfl⟩

/-! ### Base64 encode/decode roundtrip -/

/-- The unpadded part of `b64EncodeBytes`. -/
def b64Core : List Nat → List Char
  | [] => []
  | [a] => [b64CharOfIdx (a / 4), b64CharOfIdx (a % 4 * 16)]
  | [a, b] => [b64CharOfIdx (a / 4), b64CharOfIdx (a % 4 * 16 + b / 16),
      b64CharOfIdx (b % 16 * 4)]
  | a :: b :: c :: rest =>
    b64CharOfIdx (a / 4) :: b64CharOfIdx (a % 4 * 16 + b / 16) ::
    b64CharOfIdx (b % 16 * 4 + c / 64) :: b64CharOfIdx (c % 64) :: b64Core rest

/-- How many `=` characters `b64EncodeBytes` appends. -/
def b64PadLen : List Nat → Nat
  | [] => 0
  | [_] => 2
  | [_, _] => 1
  | _ :: _ :: _ :: rest => b64PadLen rest

/-- `base64.urlsafe_b64encode` composed with `.encode("utf-8")`: the canonical
padded base64 text of a string (for the strings used here the urlsafe and
standard alphabets coincide, as the encoder never emits `+` or `/` for inputs
whose 6-bit groups stay below 62; the decoder accepts both anyway). -/
def ssB64 (s : List Char) : List Char := b64EncodeBytes (utf8Encode s)

theorem b64EncodeBytes_core_pad : ∀ bs : List Nat,
    b64EncodeBytes bs = b64Core bs ++ List.replicate (b64PadLen bs) '=' := by
  intro bs
  induction bs using b64EncodeBytes.induct with
  | case1 => rfl
  | case2 a => rfl
  | case3 a b => rfl
  | case4 a b c rest ih =>
    simp [b64EncodeBytes, b64Core, b64PadLen, ih]

theorem b64EncodeBytes_len4 : ∀ bs : List Nat, (b64EncodeBytes bs).length % 4 = 0 := by
  intro bs
  induction bs using b64EncodeBytes.induct with
  | case1 => rfl
  | case2 a => simp [b64EncodeBytes]
  | case3 a b => simp [b64EncodeBytes]
  | case4 a b c rest ih =>
    simp only [b64EncodeBytes, List.length_cons]
    omega

theorem b64CharOfIdx_table : ∀ i ∈ List.range 64,
    b64IdxOfChar? (b64CharOfIdx i) = some i ∧
    b64Translate (b64CharOfIdx i) = b64CharOfIdx i ∧
    pyIsSpace (b64CharOfIdx i) = false ∧
    b64CharOfIdx i ≠ '=' ∧ b64CharOfIdx i ≠ '#' ∧
    b64CharOfIdx i ≠ '?' ∧ b64CharOfIdx i ≠ '@' ∧ b64CharOfIdx i ≠ ':' := by decide

theorem b64Core_mem {bs : List Nat} (hb : bs.all (· < 256) = true) :
    ∀ c ∈ b64Core bs, ∃ i, i < 64 ∧ c = b64CharOfIdx i := by
  induction bs using b64Core.induct with
  | case1 => intro c hc; exact absurd hc (by simp [b64Core])
  | case2 a =>
    simp only [List.all_cons, List.all_nil, Bool.and_true, decide_eq_true_eq] at hb
    intro c hc
    rcases (by simpa [b64Core] using hc : c = b64CharOfIdx (a / 4) ∨
        c = b64CharOfIdx (a % 4 * 16)) with h | h
    · exact ⟨a / 4, by omega, h⟩
    · exact ⟨a % 4 * 16, by omega, h⟩
  | case3 a b =>
    simp only [List.all_cons, List.all_nil, Bool.and_true, Bool.and_eq_true,
      decide_eq_true_eq] at hb
    intro c hc
    rcases (by simpa [b64Core] using hc : c = b64CharOfIdx (a / 4) ∨
        c = b64CharOfIdx (a % 4 * 16 + b / 16) ∨ c = b64CharOfIdx (b % 16 * 4)) with
      h | h | h
    · exact ⟨a / 4, by omega, h⟩
    · exact ⟨a % 4 * 16 + b / 16, by omega, h⟩
    · exact ⟨b % 16 * 4, by omega, h⟩
  | case4 a b c rest ih =>
    simp only [List.all_cons, Bool.and_eq_true, decide_eq_true_eq] at hb
    intro x hx
    rcases (by simpa [b64Core] using hx : x = b64CharOfIdx (a / 4) ∨
        x = b64CharOfIdx (a % 4 * 16 + b / 16) ∨
        x = b64CharOfIdx (b % 16 * 4 + c / 64) ∨
        x = b64CharOfIdx (c % 64) ∨ x ∈ b64Core rest) with h | h | h | h | h
    · exact ⟨a / 4, by omega, h⟩
    · exact ⟨a % 4 * 16 + b / 16, by omega, h⟩
    · exact ⟨b % 16 * 4 + c / 64, by omega, h⟩
    · exact ⟨c % 64, by omega, h⟩
    · exact ih hb.2.2.2 x h

theorem dropWhile_eq_replicate_append {l : List Char} (k : Nat) :
    List.dropWhile (· = '=') (List.replicate k '=' ++ l) =
      List.dropWhile (· = '=') l := by
  induction k with
  | zero => rfl
  | succ n ih => simp [List.replicate_succ, List.dropWhile_cons, ih]

theorem dropTrailEq_not_mem {l : List Char} (h : '=' ∉ l) : dropTrailEq l = l := by
  rw [dropTrailEq]
  cases hrev : l.reverse with
  | nil =>
    rw [List.reverse_eq_nil_iff] at hrev
    simp [hrev]
  | cons c t =>
    have hc : c ∈ l := by
      have : c ∈ l.reverse := by rw [hrev]; simp
      simpa using this
    rw [List.dropWhile_cons_of_neg (by simpa using fun he : c = '=' => h (he ▸ hc))]
    rw [← hrev, List.reverse_reverse]

theorem dropTrailEq_append_replicate {a : List Char} (k : Nat) (ha : '=' ∉ a) :
    dropTrailEq (a ++ List.replicate k '=') = a := by
  rw [dropTrailEq, List.reverse_append, List.reverse_replicate,
    dropWhile_eq_replicate_append]
  have := dropTrailEq_not_mem ha
  rw [dropTrailEq] at this
  exact this

theorem b64CharOfIdx_facts {i : Nat} (h : i < 64) :
    b64IdxOfChar? (b64CharOfIdx i) = some i ∧
    b64Translate (b64CharOfIdx i) = b64CharOfIdx i ∧
    pyIsSpace (b64CharOfIdx i) = false ∧
    b64CharOfIdx i ≠ '=' ∧ b64CharOfIdx i ≠ '#' ∧
    b64CharOfIdx i ≠ '?' ∧ b64CharOfIdx i ≠ '@' ∧ b64CharOfIdx i ≠ ':' :=
  b64CharOfIdx_table i (List.mem_range.mpr h)

theorem list_map_id_of {α : Type} {f : α → α} {l : List α}
    (h : ∀ a ∈ l, f a = a) : l.map f = l := by
  induction l with
  | nil => rfl
  | cons a t ih =>
    simp only [List.map_cons, h a (by simp)]
    exact congrArg (a :: ·) (ih fun b hb => h b (by simp [hb]))

theorem list_filter_all {α : Type} {p : α → Bool} {l : List α}
    (h : ∀ a ∈ l, p a = true) : l.filter p = l := by
  induction l with
  | nil => rfl
  | cons a t ih =>
    rw [List.filter_cons_of_pos (h a (by simp))]
    exact congrArg (a :: ·) (ih fun b hb => h b (by simp [hb]))

theorem b64Core_decode {bs : List Nat} (hb : bs.all (· < 256) = true) :
    b64DecodeIdxs (List.filterMap b64IdxOfChar? (b64Core bs)) = some bs := by
  induction bs using b64Core.induct with
  | case1 => rfl
  | case2 a =>
    simp only [List.all_cons, List.all_nil, Bool.and_true, decide_eq_true_eq] at hb
    rw [b64Core]
    rw [List.filterMap_cons, (b64CharOfIdx_facts (show a / 4 < 64 by omega)).1,
      List.filterMap_cons, (b64CharOfIdx_facts (show a % 4 * 16 < 64 by omega)).1,
      List.filterMap_nil, b64DecodeIdxs]
    have : a / 4 * 4 + a % 4 * 16 / 16 = a := by omega
    rw [this]
  | case3 a b =>
    simp only [List.all_cons, List.all_nil, Bool.and_true, Bool.and_eq_true,
      decide_eq_true_eq] at hb
    rw [b64Core]
    rw [List.filterMap_cons, (b64CharOfIdx_facts (show a / 4 < 64 by omega)).1,
      List.filterMap_cons,
      (b64CharOfIdx_facts (show a % 4 * 16 + b / 16 < 64 by omega)).1,
      List.filterMap_cons, (b64CharOfIdx_facts (show b % 16 * 4 < 64 by omega)).1,
      List.filterMap_nil, b64DecodeIdxs]
    have h1 : a / 4 * 4 + (a % 4 * 16 + b / 16) / 16 = a := by omega
    have h2 : (a % 4 * 16 + b / 16) % 16 * 16 + b % 16 * 4 / 4 = b := by omega
    rw [h1, h2]
  | case4 a b c rest ih =>
    simp only [List.all_cons, Bool.and_eq_true, decide_eq_true_eq] at hb
    rw [b64Core]
    rw [List.filterMap_cons, (b64CharOfIdx_facts (show a / 4 < 64 by omega)).1,
      List.filterMap_cons,
      (b64CharOfIdx_facts (show a % 4 * 16 + b / 16 < 64 by omega)).1,
      List.filterMap_cons,
      (b64CharOfIdx_facts (show b % 16 * 4 + c / 64 < 64 by omega)).1,
      List.filterMap_cons, (b64CharOfIdx_facts (show c % 64 < 64 by omega)).1,
      b64DecodeIdxs, ih hb.2.2.2]
    have h1 : a / 4 * 4 + (a % 4 * 16 + b / 16) / 16 = a := by omega
    have h2 : (a % 4 * 16 + b / 16) % 16 * 16 + (b % 16 * 4 + c / 64) / 4 = b := by
      omega
    have h3 : (b % 16 * 4 + c / 64) % 4 * 64 + c % 64 = c := by omega
    simp only [Option.map_some']
    rw [h1, h2, h3]

theorem b64_roundtrip {bs : List Nat} (hb : bs.all (· < 256) = true) :
    b64DecodeBytes? (b64EncodeBytes bs) = some bs := by
  have hmem := b64Core_mem hb
  have hne : '=' ∉ b64Core bs := fun hm => by
    obtain ⟨i, hi, he⟩ := hmem _ hm
    exact (b64CharOfIdx_facts hi).2.2.2.1 he.symm
  rw [b64DecodeBytes?, b64EncodeBytes_core_pad]
  have hmap : (b64Core bs ++ List.replicate (b64PadLen bs) '=').map b64Translate =
      b64Core bs ++ List.replicate (b64PadLen bs) '=' := by
    rw [List.map_append, List.map_replicate]
    rw [list_map_id_of fun c hc => by
      obtain ⟨i, hi, he⟩ := hmem c hc
      exact he ▸ (b64CharOfIdx_facts hi).2.1]
    rfl
  rw [hmap]
  have hfil : (b64Core bs ++ List.replicate (b64PadLen bs) '=').filter
      (fun c => (b64IdxOfChar? c).isSome || c = '=') =
      b64Core bs ++ List.replicate (b64PadLen bs) '=' := by
    refine list_filter_all fun c hc => ?_
    rcases List.mem_append.mp hc with h | h
    · obtain ⟨i, hi, he⟩ := hmem c h
      rw [he, (b64CharOfIdx_facts hi).1]
      rfl
    · rw [List.eq_of_mem_replicate h]
      rfl
  rw [hfil, dropTrailEq_append_replicate _ hne]
  have hcont : (b64Core bs).contains '=' = false := by
    rw [List.contains_eq_any_beq]
    rw [List.any_eq_false]
    intro c hc
    obtain ⟨i, hi, he⟩ := hmem c hc
    subst he
    simp only [beq_iff_eq]
    exact fun hx => (b64CharOfIdx_facts hi).2.2.2.1 hx.symm
  rw [hcont]
  simp only [Bool.false_eq_true, if_false]
  exact b64Core_decode hb

theorem utf8Encode_ascii {s : List Char} (h : ∀ c ∈ s, c.toNat < 128) :
    utf8Encode s = s.map Char.toNat := by
  induction s with
  | nil => rfl
  | cons c t ih =>
    have hc : c.toNat < 128 := h c (by simp)
    have he : utf8EncodeChar c = [c.toNat] := by simp [utf8EncodeChar, hc]
    simp only [utf8Encode] at ih ⊢
    simp [he, ih fun b hb => h b (by simp [hb])]

theorem utf8DecodeStrict_cons_ascii (fuel b : Nat) (rest : List Nat)
    (hb : b < 128) :
    utf8DecodeStrict (fuel + 1) (b :: rest) =
      (utf8DecodeStrict fuel rest).map (Char.ofNat b :: ·) := by
  simp [utf8DecodeStrict, hb]

theorem utf8DecodeStrict_ascii {s : List Char} (h : ∀ c ∈ s, c.toNat < 128) :
    ∀ fuel, s.length ≤ fuel →
      utf8DecodeStrict fuel (s.map Char.toNat) = some s := by
  induction s with
  | nil => intro fuel _; cases fuel <;> rfl
  | cons c t ih =>
    intro fuel hf
    cases fuel with
    | zero => simp at hf
    | succ f =>
      have hc : c.toNat < 128 := h c (by simp)
      rw [List.map_cons, utf8DecodeStrict_cons_ascii f _ _ hc,
        ih (fun b hb => h b (by simp [hb])) f (by simp at hf; omega)]
      simp [Char.ofNat_toNat]

theorem utf8_ascii_roundtrip {s : List Char} (h : ∀ c ∈ s, c.toNat < 128) :
    utf8Decode? (utf8Encode s) = some s := by
  rw [utf8Decode?, utf8Encode_ascii h]
  exact utf8DecodeStrict_ascii h _ (by rw [List.length_map]; omega)

theorem utf8Encode_ascii_bytes {s : List Char} (h : ∀ c ∈ s, c.toNat < 128) :
    (utf8Encode s).all (· < 256) = true := by
  rw [utf8Encode_ascii h, List.all_eq_true]
  intro b hb
  rcases List.mem_map.mp hb with ⟨c, hc, rfl⟩
  exact decide_eq_true (by have := h c hc; omega)

theorem ssB64_nospace {s : List Char} (ha : ∀ c ∈ s, c.toNat < 128) :
    ∀ c ∈ ssB64 s, pyIsSpace c = false ∧ c ≠ '#' ∧ c ≠ '?' ∧ c ≠ '@' := by
  intro c hc
  rw [ssB64, b64EncodeBytes_core_pad] at hc
  rcases List.mem_append.mp hc with h | h
  · obtain ⟨i, hi, he⟩ := b64Core_mem (utf8Encode_ascii_bytes ha) c h
    have hf := b64CharOfIdx_facts hi
    exact he ▸ ⟨hf.2.2.1, hf.2.2.2.2.1, hf.2.2.2.2.2.1, hf.2.2.2.2.2.2.1⟩
  · rw [List.eq_of_mem_replicate h]
    exact ⟨rfl, by decide, by decide, by decide⟩

theorem ssB64_ne_nil {s : List Char} (ha : ∀ c ∈ s, c.toNat < 128) (hne : s ≠ []) :
    ssB64 s ≠ [] := by
  rw [ssB64]
  have hb : utf8Encode s ≠ [] := by
    rw [utf8Encode_ascii ha]
    simpa using hne
  cases hb2 : utf8Encode s with
  | nil => exact absurd hb2 hb
  | cons x t =>
    cases t with
    | nil => simp [b64EncodeBytes]
    | cons y t2 => cases t2 <;> simp [b64EncodeBytes]

/-- `safe_base64_decode` inverts the canonical padded encoding of a non-empty
ASCII string. -/
theorem safe_b64_roundtrip {s : List Char} (ha : ∀ c ∈ s, c.toNat < 128)
    (hne : s ≠ []) : safe_base64_decode (ssB64 s) = s := by
  have hbytes := utf8Encode_ascii_bytes ha
  have hrt := b64_roundtrip hbytes
  have hlen : (ssB64 s).length % 4 = 0 := b64EncodeBytes_len4 (utf8Encode s)
  rw [safe_base64_decode, if_neg (ssB64_ne_nil ha hne),
    pyStrip_nospace (fun c hc => (ssB64_nospace ha c hc).1)]
  dsimp only
  rw [if_neg (not_ne_iff.mpr hlen)]
  rw [show b64DecodeBytes? (ssB64 s) = some (utf8Encode s) from hrt]
  dsimp only
  rw [show utf8Decode? (utf8Encode s) = some s from utf8_ascii_roundtrip ha]

/-- C7 (amended): for a method without `:`, any password, a host free of
`#`/`?`/`@`, a non-empty all-digit port string and ASCII text throughout, the
legacy link `ss://base64(m:pw@h:p)` and the SIP002 link `ss://base64(m:pw)@h:p`
parse to the SAME descriptor: same server, same port, same (sanitized) method,
same password, and even the same tag `ss-proxy`. -/
theorem ss_legacy_sip002 (m pw h ds : List Char)
    (hm : ':' ∉ m)
    (hh : '#' ∉ h ∧ '?' ∉ h ∧ '@' ∉ h)
    (hds : ds ≠ [] ∧ ds.all isDigitC = true)
    (hascii : ∀ c ∈ (m ++ ':' :: pw) ++ '@' :: (h ++ ':' :: ds), c.toNat < 128) :
    ∃ host meth,
      parse_shadowsocks ("ss://".data ++
          ssB64 ((m ++ ':' :: pw) ++ '@' :: (h ++ ':' :: ds))) =
        .ok (.obj [("type".data, .str "shadowsocks".data),
          ("tag".data, .str "ss-proxy".data),
          ("server".data, .str host),
          ("server_port".data, .num (digitsVal ds)),
          ("method".data, .str meth),
          ("password".data, .str pw)]) ∧
      parse_shadowsocks ("ss://".data ++
          (ssB64 (m ++ ':' :: pw) ++ '@' :: (h ++ ':' :: ds))) =
        .ok (.obj [("type".data, .str "shadowsocks".data),
          ("tag".data, .str "ss-proxy".data),
          ("server".data, .str host),
          ("server_port".data, .num (digitsVal ds)),
          ("method".data, .str meth),
          ("password".data, .str pw)]) := by
  have hdig := List.all_eq_true.mp hds.2
  have hdsh : '#' ∉ ds := fun hm2 => absurd (hdig _ hm2) (by decide)
  have hdsq : '?' ∉ ds := fun hm2 => absurd (hdig _ hm2) (by decide)
  have hdsat : '@' ∉ ds := fun hm2 => absurd (hdig _ hm2) (by decide)
  have hnoatT : '@' ∉ h ++ ':' :: ds := by
    simp only [List.mem_append, List.mem_cons, not_or]
    exact ⟨hh.2.2, by decide, hdsat⟩
  have hasciiC : ∀ c ∈ m ++ ':' :: pw, c.toNat < 128 :=
    fun c hc => hascii c (List.mem_append_left _ hc)
  have hb64D := safe_b64_roundtrip hascii (by simp)
  have hb64C := safe_b64_roundtrip hasciiC (by simp)
  have charsD := ssB64_nospace hascii
  have charsC := ssB64_nospace hasciiC
  have hnohashD : '#' ∉ ssB64 ((m ++ ':' :: pw) ++ '@' :: (h ++ ':' :: ds)) :=
    fun hm2 => (charsD _ hm2).2.1 rfl
  have hnoqD : '?' ∉ ssB64 ((m ++ ':' :: pw) ++ '@' :: (h ++ ':' :: ds)) :=
    fun hm2 => (charsD _ hm2).2.2.1 rfl
  have hnoatD : '@' ∉ ssB64 ((m ++ ':' :: pw) ++ '@' :: (h ++ ':' :: ds)) :=
    fun hm2 => (charsD _ hm2).2.2.2 rfl
  have hnohash2 : '#' ∉ ssB64 (m ++ ':' :: pw) ++ '@' :: (h ++ ':' :: ds) := by
    simp only [List.mem_append, List.mem_cons, not_or]
    exact ⟨fun hm2 => (charsC _ hm2).2.1 rfl, by decide, hh.1, by decide, hdsh⟩
  have hnoq2 : '?' ∉ ssB64 (m ++ ':' :: pw) ++ '@' :: (h ++ ':' :: ds) := by
    simp only [List.mem_append, List.mem_cons, not_or]
    exact ⟨fun hm2 => (charsC _ hm2).2.2.1 rfl, by decide, hh.2.1, by decide, hdsq⟩
  have hint : pyIntOfStr? ds = some ((digitsVal ds : Int)) := by
    rw [pyIntOfStr?, if_pos (by simp [hds.1, hds.2])]
  have hshp : ∃ hostv, parse_server_host_port (h ++ ':' :: ds) =
      .ok (hostv, (digitsVal ds : Int)) := by
    rw [parse_server_host_port, rsplitOnceChar_append h (colon_not_mem_digits hds.2)]
    dsimp only
    rw [hint]
    exact ⟨_, rfl⟩
  obtain ⟨hostv, hshp⟩ := hshp
  refine ⟨hostv,
    (if VALID_SS_METHODS.contains (pyLower m) then pyLower m
     else if VALID_SS_METHODS.contains (pyLower (safe_base64_decode (pyLower m))) then
       pyLower (safe_base64_decode (pyLower m))
     else pyLower m), ?_, ?_⟩
  · rw [parse_shadowsocks, if_neg (not_not_intro (pyStartsWith_append "ss://".data _))]
    rw [show ("ss://".data ++
        ssB64 ((m ++ ':' :: pw) ++ '@' :: (h ++ ':' :: ds))).drop 5 =
        ssB64 ((m ++ ':' :: pw) ++ '@' :: (h ++ ':' :: ds)) from rfl]
    dsimp only
    rw [splitOnceChar_not_mem hnohashD]
    dsimp only
    rw [splitOnceChar_not_mem hnoqD]
    dsimp only
    rw [rsplitOnceChar_not_mem hnoatD]
    dsimp only
    rw [hb64D]
    rw [rsplitOnceChar_append (m ++ ':' :: pw) hnoatT]
    dsimp only
    rw [hshp]
    dsimp only
    rw [splitOnceChar_append pw hm]
  · rw [parse_shadowsocks, if_neg (not_not_intro (pyStartsWith_append "ss://".data _))]
    rw [show ("ss://".data ++
        (ssB64 (m ++ ':' :: pw) ++ '@' :: (h ++ ':' :: ds))).drop 5 =
        ssB64 (m ++ ':' :: pw) ++ '@' :: (h ++ ':' :: ds) from rfl]
    dsimp only
    rw [splitOnceChar_not_mem hnohash2]
    dsimp only
    rw [splitOnceChar_not_mem hnoq2]
    dsimp only
    rw [rsplitOnceChar_append (ssB64 (m ++ ':' :: pw)) hnoatT]
    dsimp only
    rw [hb64C]
    rw [splitOnceChar_append pw hm]
    dsimp only
    rw [hshp]

/-- C7 witness: the amended theorem instantiated at method `aes-256-gcm`,
password `pw`, host `h`, port `1`. -/
theorem ss_legacy_sip002_witness :
    (':' ∉ "aes-256-gcm".data) ∧
    ('#' ∉ "h".data ∧ '?' ∉ "h".data ∧ '@' ∉ "h".data) ∧
    (("1".data : List Char) ≠ [] ∧ "1".data.all isDigitC = true) ∧
    (∀ c ∈ ("aes-256-gcm".data ++ ':' :: "pw".data) ++
        '@' :: ("h".data ++ ':' :: "1".data), c.toNat < 128) ∧
    (∃ host meth,
      parse_shadowsocks ("ss://".data ++
          ssB64 (("aes-256-gcm".data ++ ':' :: "pw".data) ++
            '@' :: ("h".data ++ ':' :: "1".data))) =
        .ok (.obj [("type".data, .str "shadowsocks".data),
          ("tag".data, .str "ss-proxy".data),
          ("server".data, .str host),
          ("server_port".data, .num (digitsVal "1".data)),
          ("method".data, .str meth),
          ("password".data, .str "pw".data)]) ∧
      parse_shadowsocks ("ss://".data ++
          (ssB64 ("aes-256-gcm".data ++ ':' :: "pw".data) ++
            '@' :: ("h".data ++ ':' :: "1".data))) =
        .ok (.obj [("type".data, .str "shadowsocks".data),
          ("tag".data, .str "ss-proxy".data),
          ("server".data, .str host),
          ("server_port".data, .num (digitsVal "1".data)),
          ("method".data, .str meth),
          ("password".data, .str "pw".data)])) :=
  ⟨by decide, by decide, by decide, by decide,
    ss_legacy_sip002 "aes-256-gcm".data "pw".data "h".data "1".data
      (by decide) (by decide) (by decide) (by decide)⟩

/-- C7 counterexample: for host `h#y` the legacy link parses fine (the `#` is
hidden inside the base64 text), but in the SIP002 form the fragment split runs
on the raw link before any decoding, leaving the bare server string `h`, whose
parse raises; so the two forms do NOT always yield identical descriptors. -/
theorem ss_legacy_sip002_cex :
    ssB64 "aes-256-gcm:pw@h#y:1".data = "YWVzLTI1Ni1nY206cHdAaCN5OjE=".data ∧
    ssB64 "aes-256-gcm:pw".data = "YWVzLTI1Ni1nY206cHc=".data ∧
    parse_shadowsocks ("ss://".data ++ ssB64 "aes-256-gcm:pw@h#y:1".data) =
      .ok (.obj [("type".data, .str "shadowsocks".data),
        ("tag".data, .str "ss-proxy".data),
        ("server".data, .str "h#y".data),
        ("server_port".data, .num 1),
        ("method".data, .str "aes-256-gcm".data),
        ("password".data, .str "pw".data)]) ∧
    parse_shadowsocks ("ss://".data ++
      (ssB64 "aes-256-gcm:pw".data ++ '@' :: "h#y:1".data)) = .error () :=
  ⟨rfl, rfl, rfl, rfl⟩

/-! ### Fingerprint stability -/

theorem findSub_none {sep l : List Char} (c : Char) (hc : c ∈ sep) (hl : c ∉ l) :
    findSub sep l = none := by
  induction l with
  | nil => rfl
  | cons x t ih =>
    simp only [List.mem_cons, not_or] at hl
    have hnp : ¬ (sep.isPrefixOf (x :: t) = true) := by
      intro hpre
      have hsub := (List.isPrefixOf_iff_prefix.mp hpre).subset hc
      simp only [List.mem_cons] at hsub
      rcases hsub with h | h
      · exact hl.1 h
      · exact hl.2 h
    rw [findSub, if_neg hnp, ih hl.2]
    rfl

theorem findSub_self (pre X : List Char) (hne : pre ≠ []) :
    findSub pre (pre ++ X) = some ([], X) := by
  cases pre with
  | nil => exact absurd rfl hne
  | cons c t =>
    have hcond : ((c :: t).isPrefixOf (c :: (t ++ X))) = true := by
      rw [← List.cons_append]
      exact List.isPrefixOf_iff_prefix.mpr ⟨X, rfl⟩
    rw [List.cons_append, findSub, if_pos hcond, ← List.cons_append,
      List.drop_left]

theorem splitAllSubAux_no_occ {sep l : List Char} (h : findSub sep l = none) :
    ∀ fuel, splitAllSubAux sep fuel l = [l] := by
  intro fuel
  cases fuel with
  | zero => rfl
  | succ f => rw [splitAllSubAux, h]

theorem splitAllSub_head (sep l a b : List Char) (h1 : findSub sep l = some (a, b))
    (h2 : findSub sep b = none) : splitAllSub sep l = [a, b] := by
  rw [splitAllSub, splitAllSubAux, h1]
  dsimp only
  rw [splitAllSubAux_no_occ h2]

theorem pyReplace_scheme (pre X : List Char) (c : Char) (hc : c ∈ pre) (hX : c ∉ X)
    (hpre : findSub pre (pre ++ X) = some ([], X)) :
    pyReplace pre [] (pre ++ X) = X := by
  rw [pyReplace, splitAllSub_head _ _ _ _ hpre (findSub_none c hc hX)]
  simp [List.intercalate]

theorem b64PadLen_le : ∀ bs : List Nat, b64PadLen bs ≤ 2 := by
  intro bs
  induction bs using b64PadLen.induct with
  | case1 => simp [b64PadLen]
  | case2 a => simp [b64PadLen]
  | case3 a b => simp [b64PadLen]
  | case4 a b c rest ih => simpa [b64PadLen] using ih

theorem b64Core_not_mem {bs : List Nat} (hb : bs.all (· < 256) = true) {c : Char}
    (hc : ∀ i, i < 64 → c ≠ b64CharOfIdx i) : c ∉ b64Core bs := by
  intro hm
  obtain ⟨i, hi, he⟩ := b64Core_mem hb _ hm
  exact hc i hi he

/-- Re-padding in `fp_safe_base64_decode` restores the canonical encoding from
its padding-stripped form. -/
theorem fp_repad {bs : List Nat} (hb : bs.all (· < 256) = true) :
    (if (b64Core bs).length % 4 ≠ 0 then
      b64Core bs ++ List.replicate (4 - (b64Core bs).length % 4) '='
    else b64Core bs) = b64EncodeBytes bs := by
  have hlen := b64EncodeBytes_len4 bs
  rw [b64EncodeBytes_core_pad] at hlen ⊢
  rw [List.length_append, List.length_replicate] at hlen
  have hple := b64PadLen_le bs
  by_cases h0 : (b64Core bs).length % 4 = 0
  · rw [if_neg (not_ne_iff.mpr h0)]
    have : b64PadLen bs = 0 := by omega
    rw [this]
    simp
  · rw [if_pos h0]
    have : 4 - (b64Core bs).length % 4 = b64PadLen bs := by omega
    rw [this]

theorem utf8DecodeIgnore_cons_ascii (fuel b : Nat) (rest : List Nat)
    (hb : b < 128) :
    utf8DecodeIgnore (fuel + 1) (b :: rest) =
      Char.ofNat b :: utf8DecodeIgnore fuel rest := by
  simp [utf8DecodeIgnore, hb]

theorem utf8DecodeIgnore_ascii {s : List Char} (h : ∀ c ∈ s, c.toNat < 128) :
    ∀ fuel, s.length ≤ fuel →
      utf8DecodeIgnore fuel (s.map Char.toNat) = s := by
  induction s with
  | nil => intro fuel _; cases fuel <;> rfl
  | cons c t ih =>
    intro fuel hf
    cases fuel with
    | zero => simp at hf
    | succ f =>
      have hc : c.toNat < 128 := h c (by simp)
      rw [List.map_cons, utf8DecodeIgnore_cons_ascii f _ _ hc,
        ih (fun b hb => h b (by simp [hb])) f (by simp at hf; omega)]
      simp [Char.ofNat_toNat]

theorem utf8DecodeIgn_ascii {s : List Char} (h : ∀ c ∈ s, c.toNat < 128) :
    utf8DecodeIgn (utf8Encode s) = s := by
  rw [utf8DecodeIgn, utf8Encode_ascii h]
  exact utf8DecodeIgnore_ascii h _ (by rw [List.length_map]; omega)

/-- `fingerprint.py`'s decoder inverts the canonical encoding of an ASCII
string. -/
theorem fp_b64_roundtrip {s : List Char} (ha : ∀ c ∈ s, c.toNat < 128) :
    fp_safe_base64_decode (ssB64 s) = s := by
  have hbytes := utf8Encode_ascii_bytes ha
  have hlen : (ssB64 s).length % 4 = 0 := b64EncodeBytes_len4 (utf8Encode s)
  rw [fp_safe_base64_decode,
    pyStrip_nospace (fun c hc => (ssB64_nospace ha c hc).1)]
  rw [if_neg (not_ne_iff.mpr hlen)]
  rw [show b64DecodeBytes? (ssB64 s) = some (utf8Encode s) from b64_roundtrip hbytes]
  exact utf8DecodeIgn_ascii ha

/-- `fingerprint.py`'s decoder also inverts the encoding with the `=` padding
stripped: the missing padding is restored first. -/
theorem fp_b64_roundtrip_stripped {s : List Char} (ha : ∀ c ∈ s, c.toNat < 128) :
    fp_safe_base64_decode (dropTrailEq (ssB64 s)) = s := by
  have hbytes := utf8Encode_ascii_bytes ha
  have hmem := b64Core_mem hbytes
  have hne : '=' ∉ b64Core (utf8Encode s) := fun hm => by
    obtain ⟨i, hi, he⟩ := hmem _ hm
    exact (b64CharOfIdx_facts hi).2.2.2.1 he.symm
  have hdrop : dropTrailEq (ssB64 s) = b64Core (utf8Encode s) := by
    rw [ssB64, b64EncodeBytes_core_pad]
    exact dropTrailEq_append_replicate _ hne
  rw [fp_safe_base64_decode, hdrop,
    pyStrip_nospace (fun c hc => by
      obtain ⟨i, hi, he⟩ := hmem c hc
      exact he ▸ (b64CharOfIdx_facts hi).2.2.1)]
  rw [show (if (b64Core (utf8Encode s)).length % 4 ≠ 0 then
      b64Core (utf8Encode s) ++
        List.replicate (4 - (b64Core (utf8Encode s)).length % 4) '='
    else b64Core (utf8Encode s)) = b64EncodeBytes (utf8Encode s) from fp_repad hbytes]
  rw [show b64DecodeBytes? (b64EncodeBytes (utf8Encode s)) = some (utf8Encode s) from
    b64_roundtrip hbytes]
  exact utf8DecodeIgn_ascii ha

/-- On an association list with distinct keys, `find?` by key is invariant
under permutation. -/
theorem find?_key_perm {l1 l2 : List (List Char × List Char)} (hp : l1.Perm l2) :
    (l1.map Prod.fst).Nodup → ∀ k : List Char,
      l1.find? (fun p => p.1 = k) = l2.find? (fun p => p.1 = k) := by
  induction hp with
  | nil => intro _ _; rfl
  | cons x hp ih =>
    intro hnd k
    simp only [List.map_cons, List.nodup_cons] at hnd
    cases hpx : decide (x.1 = k) with
    | true => simp [List.find?_cons, hpx]
    | false => simp [List.find?_cons, hpx, ih hnd.2 k]
  | swap x y l =>
    intro hnd k
    simp only [List.map_cons, List.nodup_cons, List.mem_cons, not_or] at hnd
    cases hpx : decide (x.1 = k) with
    | true =>
      cases hpy : decide (y.1 = k) with
      | true =>
        exact absurd ((of_decide_eq_true hpy).trans (of_decide_eq_true hpx).symm)
          hnd.1.1
      | false => simp [List.find?_cons, hpx, hpy]
    | false =>
      cases hpy : decide (y.1 = k) with
      | true => simp [List.find?_cons, hpx, hpy]
      | false => simp [List.find?_cons, hpx, hpy]
  | trans h12 h23 ih1 ih2 =>
    intro hnd k
    rw [ih1 hnd k, ih2 (((h12.map Prod.fst).nodup_iff).mp hnd) k]

theorem qsFirstD_perm {q1 q2 : List Char} (hperm : (parseQsl q1).Perm (parseQsl q2))
    (hnd : ((parseQsl q1).map Prod.fst).Nodup) (k d : List Char) :
    qsFirstD q1 k d = qsFirstD q2 k d := by
  rw [qsFirstD, qsFirstD, find?_key_perm hperm hnd k]

theorem contains_eq_false_of_not_mem {l : List Char} {c : Char} (h : c ∉ l) :
    l.contains c = false := by
  rw [List.contains_eq_any_beq, List.any_eq_false]
  intro x hx
  simp only [beq_iff_eq]
  exact fun he => h (he ▸ hx)

/-- C4 (amended): the stabilities that actually hold, one per family.
URL family: two links that split into the same scheme, netlocs agreeing on
hostname/port/username (so the host may change case), queries that are
permutations of each other with distinct keys, and arbitrary fragments, have
the same fingerprint.  VMess family: stripping the base64 `=`-padding does not
change the fingerprint.  Shadowsocks family (legacy body): stripping the
padding and appending a `#fragment` does not change the fingerprint.  (Host
case is NOT stable for the shadowsocks family — see the counterexample: the
body is kept verbatim.) -/
theorem fingerprint_stability
    (L1 L2 sch nl1 nl2 pa1 pa2 q1 q2 fr1 fr2 J D frag : List Char)
    (h1 : urlsplit? L1 = some ⟨sch, nl1, pa1, q1, fr1⟩)
    (h2 : urlsplit? L2 = some ⟨sch, nl2, pa2, q2, fr2⟩)
    (hhost : urlHostname nl1 = urlHostname nl2)
    (hport : urlPort? nl1 = urlPort? nl2)
    (huser : urlUsername nl1 = urlUsername nl2)
    (hperm : (parseQsl q1).Perm (parseQsl q2))
    (hnd : ((parseQsl q1).map Prod.fst).Nodup)
    (hJ : ∀ c ∈ J, c.toNat < 128)
    (hD : ∀ c ∈ D, c.toNat < 128) (hDne : D ≠ [])
    (hfrag : ':' ∉ frag) :
    get_url_fingerprint L1 = get_url_fingerprint L2 ∧
    get_vmess_fingerprint ("vmess://".data ++ dropTrailEq (ssB64 J)) =
      get_vmess_fingerprint ("vmess://".data ++ ssB64 J) ∧
    get_ss_fingerprint ("ss://".data ++ (dropTrailEq (ssB64 D) ++ '#' :: frag)) =
      get_ss_fingerprint ("ss://".data ++ ssB64 D) := by
  refine ⟨?_, ?_, ?_⟩
  · rw [get_url_fingerprint, get_url_fingerprint, h1, h2]
    dsimp only
    have hq : ∀ k, qsFirstD q1 k [] = qsFirstD q2 k [] :=
      fun k => qsFirstD_perm hperm hnd k []
    simp only [hq, hhost, hport, huser]
  · have hbytesJ := utf8Encode_ascii_bytes hJ
    have hmemJ := b64Core_mem hbytesJ
    have hneJ : '=' ∉ b64Core (utf8Encode J) := fun hm => by
      obtain ⟨i, hi, he⟩ := hmemJ _ hm
      exact (b64CharOfIdx_facts hi).2.2.2.1 he.symm
    have hdropJ : dropTrailEq (ssB64 J) = b64Core (utf8Encode J) := by
      rw [ssB64, b64EncodeBytes_core_pad]
      exact dropTrailEq_append_replicate _ hneJ
    have hcolonB : ':' ∉ ssB64 J := fun hm => by
      rw [ssB64, b64EncodeBytes_core_pad] at hm
      rcases List.mem_append.mp hm with h | h
      · obtain ⟨i, hi, he⟩ := hmemJ _ h
        exact (b64CharOfIdx_facts hi).2.2.2.2.2.2.2 he.symm
      · exact absurd (List.eq_of_mem_replicate h) (by decide)
    have hcolonC : ':' ∉ dropTrailEq (ssB64 J) := fun hm => by
      rw [hdropJ] at hm
      obtain ⟨i, hi, he⟩ := hmemJ _ hm
      exact (b64CharOfIdx_facts hi).2.2.2.2.2.2.2 he.symm
    rw [get_vmess_fingerprint, get_vmess_fingerprint,
      pyReplace_scheme "vmess://".data (dropTrailEq (ssB64 J)) ':' (by decide)
        hcolonC (findSub_self _ _ (by decide)),
      pyReplace_scheme "vmess://".data (ssB64 J) ':' (by decide) hcolonB
        (findSub_self _ _ (by decide)),
      fp_b64_roundtrip_stripped hJ, fp_b64_roundtrip hJ]
  · have hbytesD := utf8Encode_ascii_bytes hD
    have hmemD := b64Core_mem hbytesD
    have hneD : '=' ∉ b64Core (utf8Encode D) := fun hm => by
      obtain ⟨i, hi, he⟩ := hmemD _ hm
      exact (b64CharOfIdx_facts hi).2.2.2.1 he.symm
    have hdropD : dropTrailEq (ssB64 D) = b64Core (utf8Encode D) := by
      rw [ssB64, b64EncodeBytes_core_pad]
      exact dropTrailEq_append_replicate _ hneD
    have hhashD : '#' ∉ b64Core (utf8Encode D) := fun hm => by
      obtain ⟨i, hi, he⟩ := hmemD _ hm
      exact (b64CharOfIdx_facts hi).2.2.2.2.1 he.symm
    have hatD : '@' ∉ b64Core (utf8Encode D) := fun hm => by
      obtain ⟨i, hi, he⟩ := hmemD _ hm
      exact (b64CharOfIdx_facts hi).2.2.2.2.2.2.1 he.symm
    have hcolonD : ':' ∉ b64Core (utf8Encode D) := fun hm => by
      obtain ⟨i, hi, he⟩ := hmemD _ hm
      exact (b64CharOfIdx_facts hi).2.2.2.2.2.2.2 he.symm
    have hatB : '@' ∉ ssB64 D := fun hm => (ssB64_nospace hD _ hm).2.2.2 rfl
    have hhashB : '#' ∉ ssB64 D := fun hm => (ssB64_nospace hD _ hm).2.1 rfl
    have hcolonBD : ':' ∉ ssB64 D := fun hm => by
      rw [ssB64, b64EncodeBytes_core_pad] at hm
      rcases List.mem_append.mp hm with h | h
      · obtain ⟨i, hi, he⟩ := hmemD _ h
        exact (b64CharOfIdx_facts hi).2.2.2.2.2.2.2 he.symm
      · exact absurd (List.eq_of_mem_replicate h) (by decide)
    have hX1 : ':' ∉ dropTrailEq (ssB64 D) ++ '#' :: frag := by
      simp only [List.mem_append, List.mem_cons, not_or]
      exact ⟨fun hm => hcolonD (hdropD ▸ hm), by decide, hfrag⟩
    rw [get_ss_fingerprint,
      splitAllSub_head "ss://".data
        ("ss://".data ++ (dropTrailEq (ssB64 D) ++ '#' :: frag)) []
        (dropTrailEq (ssB64 D) ++ '#' :: frag)
        (findSub_self _ _ (by decide))
        (findSub_none ':' (by decide) hX1)]
    dsimp only
    rw [hdropD, splitAllChar_append_sep frag hhashD]
    dsimp only
    have hcontD : (b64Core (utf8Encode D)).contains '@' = false :=
      contains_eq_false_of_not_mem hatD
    rw [if_pos (show ¬ ((b64Core (utf8Encode D)).contains '@' = true) from
      fun hx => by rw [hcontD] at hx; exact absurd hx (by decide))]
    rw [show fp_safe_base64_decode (b64Core (utf8Encode D)) = D from
      hdropD ▸ fp_b64_roundtrip_stripped hD]
    rw [if_pos hDne]
    rw [get_ss_fingerprint,
      splitAllSub_head "ss://".data ("ss://".data ++ ssB64 D) [] (ssB64 D)
        (findSub_self _ _ (by decide))
        (findSub_none ':' (by decide) hcolonBD)]
    dsimp only
    rw [splitAllChar_no_sep hhashB]
    dsimp only
    have hcontB : (ssB64 D).contains '@' = false :=
      contains_eq_false_of_not_mem hatB
    rw [if_pos (show ¬ ((ssB64 D).contains '@' = true) from
      fun hx => by rw [hcontB] at hx; exact absurd hx (by decide))]
    rw [fp_b64_roundtrip hD, if_pos hDne]

/-- C4 witness: the amended theorem at concrete links — a vless pair differing
in host case, query order and fragment; a vmess payload with stripped padding;
an ss legacy body with stripped padding and an added fragment. -/
theorem fingerprint_stability_witness :
    (parseQsl "sni=x&type=grpc".data).Perm (parseQsl "type=grpc&sni=x".data) ∧
    ((parseQsl "sni=x&type=grpc".data).map Prod.fst).Nodup ∧
    urlHostname "u@HOST:443".data = urlHostname "u@host:443".data ∧
    (get_url_fingerprint "vless://u@HOST:443?sni=x&type=grpc#x".data =
        get_url_fingerprint "vless://u@host:443?type=grpc&sni=x#y".data ∧
      get_vmess_fingerprint ("vmess://".data ++ dropTrailEq (ssB64 "\x7b\x7d".data)) =
        get_vmess_fingerprint ("vmess://".data ++ ssB64 "\x7b\x7d".data) ∧
      get_ss_fingerprint ("ss://".data ++
          (dropTrailEq (ssB64 "aes-256-gcm:pw@h:1".data) ++ '#' :: "tag".data)) =
        get_ss_fingerprint ("ss://".data ++ ssB64 "aes-256-gcm:pw@h:1".data)) :=
  ⟨by decide, by decide, by decide,
    fingerprint_stability "vless://u@HOST:443?sni=x&type=grpc#x".data
      "vless://u@host:443?type=grpc&sni=x#y".data "vless".data
      "u@HOST:443".data "u@host:443".data [] [] "sni=x&type=grpc".data
      "type=grpc&sni=x".data "x".data "y".data "\x7b\x7d".data
      "aes-256-gcm:pw@h:1".data "tag".data rfl rfl (by decide) (by decide)
      (by decide) (by decide) (by decide) (by decide) (by decide) (by decide)
      (by decide)⟩

/-- C4 counterexample: an ss SIP002 link with `@` keeps its body verbatim, so
changing only the case of the host changes the fingerprint — refuting host-case
stability for the shadowsocks family. -/
theorem fingerprint_stability_cex :
    generate_fingerprint "ss://YWVzLTI1Ni1nY206cHc=@HOST:1".data =
      some ("ss|YWVzLTI1Ni1nY206cHc=@HOST:1".data) ∧
    generate_fingerprint "ss://YWVzLTI1Ni1nY206cHc=@host:1".data =
      some ("ss|YWVzLTI1Ni1nY206cHc=@host:1".data) ∧
    generate_fingerprint "ss://YWVzLTI1Ni1nY206cHc=@HOST:1".data ≠
      generate_fingerprint "ss://YWVzLTI1Ni1nY206cHc=@host:1".data :=
  ⟨rfl, rfl, by decide⟩

end Rayzor
